import Mathlib

/-!
# NEML: viscoplastic flow rules, substep integration, parameter sets

A shallow embedding of `src/src/visco_flow.cxx`, `src/src/objects.h` and of the
interfaces declared in `src/include/models.h`.

Conventions of the embedding.

* `double` is an arbitrary linearly ordered field `R` (exact arithmetic); the
  definitions are computable and can be run with `R := ℚ`.
* A `double *` buffer is a `List R`.  A routine that writes through a pointer
  takes the buffer as it is on entry and returns the buffer as it is on exit.
* An `int` status code is an `Int`; `0` is success.
* Virtual collaborators (`YieldSurface`, `HardeningRule`, ...) are records of
  functions.  A collaborator that writes into a caller-provided array gets the
  array's contents on entry as its last argument.  Arrays that are local to a
  routine (`double q[nhist()]`) are handed over zero-filled.
* Every routine returns, besides its status and its output, the list of
  collaborator calls it made, in order, each with the status it returned.
-/

namespace neml

/-! ## Collaborator interfaces used by `visco_flow.cxx` -/

/-- Names of the collaborator methods a flow rule can invoke. -/
inductive Call
  | hardening_init_hist
  | hardening_q
  | hardening_dq_da
  | hardening_h
  | hardening_dh_ds
  | hardening_dh_da
  | surface_f
  | surface_df_ds
  | surface_df_dq
  | surface_df_dsds
  | surface_df_dsdq
  | surface_df_dqds
  | surface_df_dqdq
  deriving DecidableEq, Repr

/-- Result of a routine: status code, what it wrote, and the collaborator calls
it made (with the status each returned). -/
structure Ret (α : Type) where
  ier : Int
  out : α
  calls : List (Call × Int)
  deriving DecidableEq, Repr

/-- Interface `YieldSurface` (`surface_->...`): `f` writes a scalar, the
derivative routines write into the array passed last. -/
structure YieldSurface (R : Type) where
  nhist : Nat
  f : List R → List R → R → Int × R
  df_ds : List R → List R → R → List R → Int × List R
  df_dq : List R → List R → R → List R → Int × List R
  df_dsds : List R → List R → R → List R → Int × List R
  df_dsdq : List R → List R → R → List R → Int × List R
  df_dqds : List R → List R → R → List R → Int × List R
  df_dqdq : List R → List R → R → List R → Int × List R

/-- Interface `HardeningRule` as `PerzynaFlowRule` uses it. -/
structure HardeningRule (R : Type) where
  nhist : Nat
  init_hist : List R → Int × List R
  q : List R → R → List R → Int × List R
  dq_da : List R → R → List R → Int × List R

/-- Interface `NonAssociativeHardening` as `ChabocheFlowRule` uses it: `ninter`
is the length of the `q` vector handed to the yield surface, `nhist` the length
of the history vector `alpha`. -/
structure NonAssociativeHardening (R : Type) where
  ninter : Nat
  nhist : Nat
  init_hist : List R → Int × List R
  q : List R → R → List R → Int × List R
  dq_da : List R → R → List R → Int × List R
  h : List R → List R → R → List R → Int × List R
  dh_ds : List R → List R → R → List R → Int × List R
  dh_da : List R → List R → R → List R → Int × List R

/-- Interface `GFlow`: the scalar function `g` and its derivative. -/
structure GFlow (R : Type) where
  g : R → R
  dg : R → R

/-- Interface `FluidityModel`. -/
structure FluidityModel (R : Type) where
  eta : R → R
  deta : R → R

/-- The routines of `nemlmath.h` used by the flow rules.  The header is not part
of the sources, so they are parameters; the flow rules discard whatever status
they return.  Argument order is the one of the call sites:
`mat_vec_trans A m b n c` and `mat_mat m n k A B C`, the last argument being
the output array on entry. -/
structure NemlMath (R : Type) where
  mat_vec_trans : List R → Nat → List R → Nat → List R → List R
  mat_mat : Nat → Nat → Nat → List R → List R → List R → List R

/-! ## Buffer helpers -/

/-- Apply `f` to the first `n` entries of a buffer, leave the rest alone: the
shape of `for (i = 0; i < n; i++) buf[i] = f(buf[i])`. -/
def mapFirst {R : Type} (n : Nat) (f : R → R) (buf : List R) : List R :=
  (buf.take n).map f ++ buf.drop n

/-- Model of `std::fill(buf, buf + n, v)`. -/
def fill {R : Type} (n : Nat) (v : R) (buf : List R) : List R :=
  mapFirst n (fun _ => v) buf

/-- A zero-filled local array of length `n`. -/
def zeros {R : Type} [Zero R] (n : Nat) : List R :=
  List.replicate n 0

/-! ## `GPowerLaw` and `ConstantFluidity` -/

/-- `GPowerLaw::g`, with `pow` from `<cmath>` as a parameter. -/
def GPowerLaw.g {R : Type} [LinearOrderedField R] (pow : R → R → R) (n_ : R) (f : R) : R :=
  if f > 0 then pow f n_ else 0

/-- `GPowerLaw::dg`. -/
def GPowerLaw.dg {R : Type} [LinearOrderedField R] (pow : R → R → R) (n_ : R) (f : R) : R :=
  if f > 0 then n_ * pow f (n_ - 1) else 0

/-- The `GFlow` object `GPowerLaw(n)`. -/
def GPowerLaw {R : Type} [LinearOrderedField R] (pow : R → R → R) (n_ : R) : GFlow R :=
  { g := GPowerLaw.g pow n_, dg := GPowerLaw.dg pow n_ }

/-- The `FluidityModel` object `ConstantFluidity(eta)`. -/
def ConstantFluidity {R : Type} [Zero R] (eta_ : R) : FluidityModel R :=
  { eta := fun _ => eta_, deta := fun _ => 0 }

/-! ## `PerzynaFlowRule` -/

/-- Members of `PerzynaFlowRule`. -/
structure PerzynaFlowRule (R : Type) where
  surface_ : YieldSurface R
  hardening_ : HardeningRule R
  g_ : GFlow R
  eta_ : R

/-- `PerzynaFlowRule::nhist`. -/
def PerzynaFlowRule.nhist {R : Type} (m : PerzynaFlowRule R) : Nat :=
  m.hardening_.nhist

/-- `PerzynaFlowRule::init_hist`; `INCOMPATIBLE_MODELS` is the constant of
`nemlerror.h`, which is not part of the sources. -/
def PerzynaFlowRule.init_hist {R : Type} (INCOMPATIBLE_MODELS : Int)
    (m : PerzynaFlowRule R) (h : List R) : Ret (List R) :=
  if m.surface_.nhist ≠ m.hardening_.nhist then
    { ier := INCOMPATIBLE_MODELS, out := h, calls := [] }
  else
    let r := m.hardening_.init_hist h
    { ier := r.1, out := r.2, calls := [(Call.hardening_init_hist, r.1)] }

/-- `PerzynaFlowRule::y`: the rate `yv`. -/
def PerzynaFlowRule.y {R : Type} [LinearOrderedField R] (m : PerzynaFlowRule R)
    (s alpha : List R) (T : R) : Ret R :=
  let rq := m.hardening_.q alpha T (zeros m.nhist)
  let rf := m.surface_.f s rq.2 T
  let gv := m.g_.g rf.2
  { ier := 0
    out := if gv > 0 then gv / m.eta_ else 0
    calls := [(Call.hardening_q, rq.1), (Call.surface_f, rf.1)] }

/-- `PerzynaFlowRule::dy_ds`; `dyv` is the output array on entry. -/
def PerzynaFlowRule.dy_ds {R : Type} [LinearOrderedField R] (m : PerzynaFlowRule R)
    (s alpha : List R) (T : R) (dyv : List R) : Ret (List R) :=
  let rq := m.hardening_.q alpha T (zeros m.nhist)
  let rf := m.surface_.f s rq.2 T
  let gv := m.g_.g rf.2
  let dyv0 := fill 6 0 dyv
  if gv > 0 then
    let dgv := m.g_.dg rf.2
    let rd := m.surface_.df_ds s rq.2 T dyv0
    { ier := 0
      out := mapFirst 6 (fun x => x * (dgv / m.eta_)) rd.2
      calls := [(Call.hardening_q, rq.1), (Call.surface_f, rf.1), (Call.surface_df_ds, rd.1)] }
  else
    { ier := 0, out := dyv0, calls := [(Call.hardening_q, rq.1), (Call.surface_f, rf.1)] }

/-- `PerzynaFlowRule::dy_da`. -/
def PerzynaFlowRule.dy_da {R : Type} [LinearOrderedField R] (nm : NemlMath R)
    (m : PerzynaFlowRule R) (s alpha : List R) (T : R) (dyv : List R) : Ret (List R) :=
  let rq := m.hardening_.q alpha T (zeros m.nhist)
  let rf := m.surface_.f s rq.2 T
  let gv := m.g_.g rf.2
  let dyv0 := fill m.nhist 0 dyv
  if gv > 0 then
    let dgv := m.g_.dg rf.2
    let rjac := m.hardening_.dq_da alpha T (zeros (m.nhist * m.nhist))
    let rrd := m.surface_.df_dq s rq.2 T (zeros m.nhist)
    let dyv1 := nm.mat_vec_trans rjac.2 m.nhist rrd.2 m.nhist dyv0
    { ier := 0
      out := mapFirst m.nhist (fun x => x * (dgv / m.eta_)) dyv1
      calls := [(Call.hardening_q, rq.1), (Call.surface_f, rf.1),
                (Call.hardening_dq_da, rjac.1), (Call.surface_df_dq, rrd.1)] }
  else
    { ier := 0, out := dyv0, calls := [(Call.hardening_q, rq.1), (Call.surface_f, rf.1)] }

/-- `PerzynaFlowRule::g`: the flow direction. -/
def PerzynaFlowRule.g {R : Type} [Zero R] (m : PerzynaFlowRule R)
    (s alpha : List R) (T : R) (gv : List R) : Ret (List R) :=
  let rq := m.hardening_.q alpha T (zeros m.nhist)
  let r := m.surface_.df_ds s rq.2 T gv
  { ier := r.1, out := r.2, calls := [(Call.hardening_q, rq.1), (Call.surface_df_ds, r.1)] }

/-- `PerzynaFlowRule::dg_ds`. -/
def PerzynaFlowRule.dg_ds {R : Type} [Zero R] (m : PerzynaFlowRule R)
    (s alpha : List R) (T : R) (dgv : List R) : Ret (List R) :=
  let rq := m.hardening_.q alpha T (zeros m.nhist)
  let r := m.surface_.df_dsds s rq.2 T dgv
  { ier := r.1, out := r.2, calls := [(Call.hardening_q, rq.1), (Call.surface_df_dsds, r.1)] }

/-- `PerzynaFlowRule::dg_da`. -/
def PerzynaFlowRule.dg_da {R : Type} [Zero R] (nm : NemlMath R) (m : PerzynaFlowRule R)
    (s alpha : List R) (T : R) (dgv : List R) : Ret (List R) :=
  let rq := m.hardening_.q alpha T (zeros m.nhist)
  let rjac := m.hardening_.dq_da alpha T (zeros (m.nhist * m.nhist))
  let rdd := m.surface_.df_dsdq s rq.2 T (zeros (6 * m.nhist))
  { ier := 0
    out := nm.mat_mat 6 m.nhist m.nhist rdd.2 rjac.2 dgv
    calls := [(Call.hardening_q, rq.1), (Call.hardening_dq_da, rjac.1),
              (Call.surface_df_dsdq, rdd.1)] }

/-- `PerzynaFlowRule::h`: the hardening direction. -/
def PerzynaFlowRule.h {R : Type} [Zero R] (m : PerzynaFlowRule R)
    (s alpha : List R) (T : R) (hv : List R) : Ret (List R) :=
  let rq := m.hardening_.q alpha T (zeros m.nhist)
  let r := m.surface_.df_dq s rq.2 T hv
  { ier := r.1, out := r.2, calls := [(Call.hardening_q, rq.1), (Call.surface_df_dq, r.1)] }

/-- `PerzynaFlowRule::dh_ds`. -/
def PerzynaFlowRule.dh_ds {R : Type} [Zero R] (m : PerzynaFlowRule R)
    (s alpha : List R) (T : R) (dhv : List R) : Ret (List R) :=
  let rq := m.hardening_.q alpha T (zeros m.nhist)
  let r := m.surface_.df_dqds s rq.2 T dhv
  { ier := r.1, out := r.2, calls := [(Call.hardening_q, rq.1), (Call.surface_df_dqds, r.1)] }

/-- `PerzynaFlowRule::dh_da`. -/
def PerzynaFlowRule.dh_da {R : Type} [Zero R] (nm : NemlMath R) (m : PerzynaFlowRule R)
    (s alpha : List R) (T : R) (dhv : List R) : Ret (List R) :=
  let rq := m.hardening_.q alpha T (zeros m.nhist)
  let rjac := m.hardening_.dq_da alpha T (zeros (m.nhist * m.nhist))
  let rdd := m.surface_.df_dqdq s rq.2 T (zeros (m.nhist * m.nhist))
  { ier := 0
    out := nm.mat_mat m.nhist m.nhist m.nhist rdd.2 rjac.2 dhv
    calls := [(Call.hardening_q, rq.1), (Call.hardening_dq_da, rjac.1),
              (Call.surface_df_dqdq, rdd.1)] }

/-- `PerzynaFlowRule::eta`. -/
def PerzynaFlowRule.eta {R : Type} (m : PerzynaFlowRule R) : R :=
  m.eta_

/-! ## `ChabocheFlowRule` -/

/-- Members of `ChabocheFlowRule`. -/
structure ChabocheFlowRule (R : Type) where
  surface_ : YieldSurface R
  hardening_ : NonAssociativeHardening R
  fluidity_ : FluidityModel R
  n_ : R

/-- `ChabocheFlowRule::nhist`. -/
def ChabocheFlowRule.nhist {R : Type} (m : ChabocheFlowRule R) : Nat :=
  m.hardening_.nhist

/-- `ChabocheFlowRule::init_hist`: the guard compares the surface's size with
`hardening_->ninter()`. -/
def ChabocheFlowRule.init_hist {R : Type} (INCOMPATIBLE_MODELS : Int)
    (m : ChabocheFlowRule R) (h : List R) : Ret (List R) :=
  if m.surface_.nhist ≠ m.hardening_.ninter then
    { ier := INCOMPATIBLE_MODELS, out := h, calls := [] }
  else
    let r := m.hardening_.init_hist h
    { ier := r.1, out := r.2, calls := [(Call.hardening_init_hist, r.1)] }

/-- `ChabocheFlowRule::y`; `alpha[0]` is `alpha.getD 0 0`. -/
def ChabocheFlowRule.y {R : Type} [LinearOrderedField R] (pow : R → R → R)
    (m : ChabocheFlowRule R) (s alpha : List R) (T : R) : Ret R :=
  let rq := m.hardening_.q alpha T (zeros m.hardening_.ninter)
  let rf := m.surface_.f s rq.2 T
  let fv := rf.2
  { ier := 0
    out := if fv > 0 then pow (fv / m.fluidity_.eta (alpha.getD 0 0)) m.n_ else 0
    calls := [(Call.hardening_q, rq.1), (Call.surface_f, rf.1)] }

/-- `ChabocheFlowRule::dy_ds`. -/
def ChabocheFlowRule.dy_ds {R : Type} [LinearOrderedField R] (pow : R → R → R)
    (m : ChabocheFlowRule R) (s alpha : List R) (T : R) (dyv : List R) : Ret (List R) :=
  let rq := m.hardening_.q alpha T (zeros m.hardening_.ninter)
  let rf := m.surface_.f s rq.2 T
  let fv := rf.2
  let dyv0 := fill 6 0 dyv
  if fv > 0 then
    let rd := m.surface_.df_ds s rq.2 T dyv0
    let eta := m.fluidity_.eta (alpha.getD 0 0)
    let mv := pow (fv / eta) (m.n_ - 1) * m.n_ / eta
    { ier := 0
      out := mapFirst 6 (fun x => x * mv) rd.2
      calls := [(Call.hardening_q, rq.1), (Call.surface_f, rf.1), (Call.surface_df_ds, rd.1)] }
  else
    { ier := 0, out := dyv0, calls := [(Call.hardening_q, rq.1), (Call.surface_f, rf.1)] }

/-- `ChabocheFlowRule::dy_da`. -/
def ChabocheFlowRule.dy_da {R : Type} [LinearOrderedField R] (pow : R → R → R)
    (nm : NemlMath R) (m : ChabocheFlowRule R) (s alpha : List R) (T : R) (dyv : List R) :
    Ret (List R) :=
  let rq := m.hardening_.q alpha T (zeros m.hardening_.ninter)
  let rf := m.surface_.f s rq.2 T
  let fv := rf.2
  let dyv0 := fill m.nhist 0 dyv
  if fv > 0 then
    let rjac := m.hardening_.dq_da alpha T (zeros (m.hardening_.ninter * m.nhist))
    let rdq := m.surface_.df_dq s rq.2 T (zeros m.hardening_.ninter)
    let dyv1 := nm.mat_vec_trans rjac.2 m.nhist rdq.2 m.hardening_.ninter dyv0
    let eta := m.fluidity_.eta (alpha.getD 0 0)
    let mv := pow (fv / eta) (m.n_ - 1) * m.n_ / eta
    let dyv2 := mapFirst m.nhist (fun x => x * mv) dyv1
    let mv2 := -fv * pow (fv / eta) (m.n_ - 1) * m.n_ / (eta * eta)
    let deta := m.fluidity_.deta (alpha.getD 0 0)
    { ier := 0
      out := mapFirst 1 (fun x => x + deta * mv2) dyv2
      calls := [(Call.hardening_q, rq.1), (Call.surface_f, rf.1),
                (Call.hardening_dq_da, rjac.1), (Call.surface_df_dq, rdq.1)] }
  else
    { ier := 0, out := dyv0, calls := [(Call.hardening_q, rq.1), (Call.surface_f, rf.1)] }

/-- `ChabocheFlowRule::g`. -/
def ChabocheFlowRule.g {R : Type} [Zero R] (m : ChabocheFlowRule R)
    (s alpha : List R) (T : R) (gv : List R) : Ret (List R) :=
  let rq := m.hardening_.q alpha T (zeros m.hardening_.ninter)
  let r := m.surface_.df_ds s rq.2 T gv
  { ier := r.1, out := r.2, calls := [(Call.hardening_q, rq.1), (Call.surface_df_ds, r.1)] }

/-- `ChabocheFlowRule::dg_ds`. -/
def ChabocheFlowRule.dg_ds {R : Type} [Zero R] (m : ChabocheFlowRule R)
    (s alpha : List R) (T : R) (dgv : List R) : Ret (List R) :=
  let rq := m.hardening_.q alpha T (zeros m.hardening_.ninter)
  let r := m.surface_.df_dsds s rq.2 T dgv
  { ier := r.1, out := r.2, calls := [(Call.hardening_q, rq.1), (Call.surface_df_dsds, r.1)] }

/-- `ChabocheFlowRule::dg_da`. -/
def ChabocheFlowRule.dg_da {R : Type} [Zero R] (nm : NemlMath R) (m : ChabocheFlowRule R)
    (s alpha : List R) (T : R) (dgv : List R) : Ret (List R) :=
  let rq := m.hardening_.q alpha T (zeros m.hardening_.ninter)
  let rjac := m.hardening_.dq_da alpha T (zeros (m.hardening_.ninter * m.nhist))
  let rdd := m.surface_.df_dsdq s rq.2 T (zeros (6 * m.hardening_.ninter))
  { ier := 0
    out := nm.mat_mat 6 m.nhist m.hardening_.ninter rdd.2 rjac.2 dgv
    calls := [(Call.hardening_q, rq.1), (Call.hardening_dq_da, rjac.1),
              (Call.surface_df_dsdq, rdd.1)] }

/-- `ChabocheFlowRule::h`. -/
def ChabocheFlowRule.h {R : Type} (m : ChabocheFlowRule R)
    (s alpha : List R) (T : R) (hv : List R) : Ret (List R) :=
  let r := m.hardening_.h s alpha T hv
  { ier := r.1, out := r.2, calls := [(Call.hardening_h, r.1)] }

/-- `ChabocheFlowRule::dh_ds`. -/
def ChabocheFlowRule.dh_ds {R : Type} (m : ChabocheFlowRule R)
    (s alpha : List R) (T : R) (dhv : List R) : Ret (List R) :=
  let r := m.hardening_.dh_ds s alpha T dhv
  { ier := r.1, out := r.2, calls := [(Call.hardening_dh_ds, r.1)] }

/-- `ChabocheFlowRule::dh_da`. -/
def ChabocheFlowRule.dh_da {R : Type} (m : ChabocheFlowRule R)
    (s alpha : List R) (T : R) (dhv : List R) : Ret (List R) :=
  let r := m.hardening_.dh_da s alpha T dhv
  { ier := r.1, out := r.2, calls := [(Call.hardening_dh_da, r.1)] }

/-! ## `ParameterSet` (`objects.h`) -/

/-- The C++ types `T` for which `GetParamType<T>` is specialised. -/
inductive CppType
  | double
  | int
  | bool
  | vec_double
  | object_ptr
  | NEMLObject
  deriving DecidableEq, Repr

/-- The enum `ParamType`. -/
inductive ParamType
  | TYPE_DOUBLE
  | TYPE_INT
  | TYPE_BOOL
  | TYPE_VEC_DOUBLE
  | TYPE_NEML_OBJECT
  deriving DecidableEq, Repr

/-- `GetParamType<T>()`. -/
def GetParamType : CppType → ParamType
  | CppType.double => ParamType.TYPE_DOUBLE
  | CppType.int => ParamType.TYPE_INT
  | CppType.bool => ParamType.TYPE_BOOL
  | CppType.vec_double => ParamType.TYPE_VEC_DOUBLE
  | CppType.object_ptr => ParamType.TYPE_NEML_OBJECT
  | CppType.NEMLObject => ParamType.TYPE_NEML_OBJECT

/-- The variant `param_type`; a `std::shared_ptr<NEMLObject>` is the address it
holds. -/
inductive param_type (R : Type)
  | double (v : R)
  | int (v : Int)
  | bool (v : Bool)
  | vec_double (v : List R)
  | object_ptr (v : Nat)
  deriving DecidableEq, Repr

/-- Values of the C++ type `T`.  `NEMLObject` itself is no alternative of the
variant, so nothing of that type can be taken out of one. -/
def CppType.Carrier (R : Type) : CppType → Type
  | CppType.double => R
  | CppType.int => Int
  | CppType.bool => Bool
  | CppType.vec_double => List R
  | CppType.object_ptr => Nat
  | CppType.NEMLObject => Empty

/-- A value of type `T` stored into the variant. -/
def param_type.ofValue {R : Type} : (T : CppType) → T.Carrier R → param_type R
  | CppType.double, v => param_type.double v
  | CppType.int, v => param_type.int v
  | CppType.bool, v => param_type.bool v
  | CppType.vec_double, v => param_type.vec_double v
  | CppType.object_ptr, v => param_type.object_ptr v
  | CppType.NEMLObject, v => nomatch v

/-- `boost::get<T>(value)`: the stored value when the variant holds a `T`,
`none` for the `bad_get` exception. -/
def boost_get {R : Type} : (T : CppType) → param_type R → Option (T.Carrier R)
  | CppType.double, param_type.double v => some v
  | CppType.int, param_type.int v => some v
  | CppType.bool, param_type.bool v => some v
  | CppType.vec_double, param_type.vec_double v => some v
  | CppType.object_ptr, param_type.object_ptr v => some v
  | _, _ => none

/-- A `std::map<std::string, V>` as an association list with one entry per key. -/
abbrev StdMap (V : Type) := List (String × V)

/-- Lookup of a key (`find`). -/
def StdMap.find {V : Type} : StdMap V → String → Option V
  | [], _ => none
  | (k, v) :: rest, name => if k = name then some v else StdMap.find rest name

/-- The assignment `m[name] = value`. -/
def StdMap.assign {V : Type} : StdMap V → String → V → StdMap V
  | [], name, value => [(name, value)]
  | (k, v) :: rest, name, value =>
    if k = name then (k, value) :: rest else (k, v) :: StdMap.assign rest name value

/-- The read `m[name]`: a missing key is first inserted with the default value. -/
def StdMap.index {V : Type} (m : StdMap V) (name : String) (dflt : V) : V × StdMap V :=
  match StdMap.find m name with
  | some v => (v, m)
  | none => (dflt, StdMap.assign m name dflt)

/-- Members of `ParameterSet`. -/
inductive ParameterSet (R : Type)
  | mk (type_ : String) (param_names_ : List String)
      (param_types_ : StdMap ParamType) (params_ : StdMap (param_type R))
      (defered_params_ : List (String × ParameterSet R))

/-- Member `type_`. -/
def ParameterSet.type_ {R : Type} : ParameterSet R → String
  | ParameterSet.mk t _ _ _ _ => t

/-- Member `param_names_`. -/
def ParameterSet.param_names_ {R : Type} : ParameterSet R → List String
  | ParameterSet.mk _ n _ _ _ => n

/-- Member `param_types_`. -/
def ParameterSet.param_types_ {R : Type} : ParameterSet R → StdMap ParamType
  | ParameterSet.mk _ _ t _ _ => t

/-- Member `params_`. -/
def ParameterSet.params_ {R : Type} : ParameterSet R → StdMap (param_type R)
  | ParameterSet.mk _ _ _ p _ => p

/-- Member `defered_params_`. -/
def ParameterSet.defered_params_ {R : Type} : ParameterSet R → List (String × ParameterSet R)
  | ParameterSet.mk _ _ _ _ d => d

/-- `ParameterSet::add_parameter<T>`. -/
def ParameterSet.add_parameter {R : Type} (T : CppType) (ps : ParameterSet R)
    (name : String) : ParameterSet R :=
  ParameterSet.mk ps.type_ (ps.param_names_ ++ [name])
    (StdMap.assign ps.param_types_ name (GetParamType T)) ps.params_ ps.defered_params_

/-- `ParameterSet::assign_parameter`. -/
def ParameterSet.assign_parameter {R : Type} (ps : ParameterSet R) (name : String)
    (value : param_type R) : ParameterSet R :=
  ParameterSet.mk ps.type_ ps.param_names_ ps.param_types_
    (StdMap.assign ps.params_ name value) ps.defered_params_

/-- `ParameterSet::add_optional_parameter<T>`. -/
def ParameterSet.add_optional_parameter {R : Type} (T : CppType) (ps : ParameterSet R)
    (name : String) (value : param_type R) : ParameterSet R :=
  (ps.add_parameter T name).assign_parameter name value

/-- Modelled from the spec: `ParameterSet::resolve_objects_` is declared in
`objects.h` ("run down the chain of deferred objects and actually construct
them") and defined elsewhere.  Every deferred parameter set is built into an
object by the factory (`create`, a parameter) and stored under its name;
the deferred map is then empty. -/
def ParameterSet.resolve_objects_ {R : Type} (create : ParameterSet R → Nat)
    (ps : ParameterSet R) : ParameterSet R :=
  ParameterSet.mk ps.type_ ps.param_names_ ps.param_types_
    (ps.defered_params_.foldl
      (fun m d => StdMap.assign m d.1 (param_type.object_ptr (create d.2))) ps.params_)
    []

/-- `ParameterSet::get_parameter<T>`: the value (or `none` when `boost::get`
throws) and the parameter set afterwards.  A default-constructed `param_type`
holds the `double` zero. -/
def ParameterSet.get_parameter {R : Type} [Zero R] (create : ParameterSet R → Nat)
    (T : CppType) (ps : ParameterSet R) (name : String) :
    Option (T.Carrier R) × ParameterSet R :=
  let ps1 := ps.resolve_objects_ create
  let r := StdMap.index ps1.params_ name (param_type.double 0)
  (boost_get T r.1,
   ParameterSet.mk ps1.type_ ps1.param_names_ ps1.param_types_ r.2 ps1.defered_params_)

/-! ## History and its evolving/static partition (`models.h`, spec §3 and §6) -/

/-- Modelled from the spec: `history.h` is not part of the sources.  A history is
"an ordered mapping from variable name to a contiguous block of doubles": its
entries in population order, each a name with its block. -/
structure History (R : Type) where
  entries : List (String × List R)
  deriving DecidableEq, Repr

/-- The history before any variable is populated. -/
def History.blank {R : Type} : History R :=
  { entries := [] }

/-- The names of a history, in order. -/
def History.names {R : Type} (h : History R) : List String :=
  h.entries.map Prod.fst

/-- The ordered name-to-size mapping of a history. -/
def History.layout {R : Type} (h : History R) : List (String × Nat) :=
  h.entries.map (fun e => (e.1, e.2.length))

/-- The flat array of a history: its blocks one after the other. -/
def History.flat {R : Type} (h : History R) : List R :=
  (h.entries.map Prod.snd).flatten

/-- Total length of the flat array. -/
def History.size {R : Type} (h : History R) : Nat :=
  h.flat.length

/-- Modelled from the spec: populating one variable appends a zero block of the
given size under a new name; a name that is already present is refused
(`none`), the history being a mapping. -/
def History.add {R : Type} [Zero R] (h : History R) (name : String) (sz : Nat) :
    Option (History R) :=
  if name ∈ h.names then none else some { entries := h.entries ++ [(name, zeros sz)] }

/-- Populate a list of variables in order. -/
def History.addAll {R : Type} [Zero R] : History R → List (String × Nat) → Option (History R)
  | h, [] => some h
  | h, v :: rest =>
    match h.add v.1 v.2 with
    | none => none
    | some h1 => History.addAll h1 rest

/-- Write `vals` over the start of a block; the block keeps its length ("total
size fixed once populate is called"). -/
def overwrite {R : Type} (old vals : List R) : List R :=
  vals.take old.length ++ old.drop vals.length

/-- Initialise the variable `name` with `vals`. -/
def History.set {R : Type} (h : History R) (name : String) (vals : List R) : History R :=
  { entries := h.entries.map (fun e => if e.1 = name then (e.1, overwrite e.2 vals) else e) }

/-- Initialise a list of variables in order. -/
def History.setAll {R : Type} (h : History R) (vars : List (String × List R)) : History R :=
  vars.foldl (fun acc v => acc.set v.1 v.2) h

/-- Keep the entries whose name is (`keep = true`) or is not (`keep = false`)
among `items`: the two halves of the static/evolving split. -/
def History.split {R : Type} (h : History R) (items : List String) (keep : Bool) : History R :=
  { entries := h.entries.filter (fun e => decide (e.1 ∈ items) == keep) }

/-- Concatenation of two histories. -/
def History.concat {R : Type} (a b : History R) : History R :=
  { entries := a.entries ++ b.entries }

/-- Modelled from the spec: the bodies of `NEMLModel::populate_state`,
`init_state`, `populate_static`, `init_static` of the concrete models are not
part of the sources.  A model is described by the variables it populates, in
order, each with its value at time zero: the evolving ones and the static
ones. -/
structure NEMLModel (R : Type) where
  state_vars : List (String × List R)
  static_vars : List (String × List R)

/-- Name and size of each variable of a list. -/
def varSizes {R : Type} (vars : List (String × List R)) : List (String × Nat) :=
  vars.map (fun v => (v.1, v.2.length))

/-- `NEMLModel::populate_state`. -/
def NEMLModel.populate_state {R : Type} [Zero R] (m : NEMLModel R) (h : History R) :
    Option (History R) :=
  h.addAll (varSizes m.state_vars)

/-- `NEMLModel::populate_static`. -/
def NEMLModel.populate_static {R : Type} [Zero R] (m : NEMLModel R) (h : History R) :
    Option (History R) :=
  h.addAll (varSizes m.static_vars)

/-- `NEMLModel::init_state`. -/
def NEMLModel.init_state {R : Type} (m : NEMLModel R) (h : History R) : History R :=
  h.setAll m.state_vars

/-- `NEMLModel::init_static`. -/
def NEMLModel.init_static {R : Type} (m : NEMLModel R) (h : History R) : History R :=
  h.setAll m.static_vars

/-- Modelled from the spec: `NEMLModel::populate_hist` (declared in `models.h`)
populates the evolving state, then the static state. -/
def NEMLModel.populate_hist {R : Type} [Zero R] (m : NEMLModel R) (h : History R) :
    Option (History R) :=
  match m.populate_state h with
  | none => none
  | some h1 => m.populate_static h1

/-- Modelled from the spec: `NEMLModel::init_hist` (declared in `models.h`)
initialises the evolving state, then the static state. -/
def NEMLModel.init_hist {R : Type} (m : NEMLModel R) (h : History R) : History R :=
  m.init_static (m.init_state h)

/-- Modelled from the spec: the cached member `stored_state_`, the evolving
variables populated into a blank history. -/
def NEMLModel.stored_state_ {R : Type} [Zero R] (m : NEMLModel R) : History R :=
  (m.populate_state History.blank).getD History.blank

/-- Modelled from the spec: the cached member `stored_static_`. -/
def NEMLModel.stored_static_ {R : Type} [Zero R] (m : NEMLModel R) : History R :=
  (m.populate_static History.blank).getD History.blank

/-- Modelled from the spec: `NEMLModel::nstate`, the size of the evolving
partition. -/
def NEMLModel.nstate {R : Type} [Zero R] (m : NEMLModel R) : Nat :=
  m.stored_state_.size

/-- Modelled from the spec: `NEMLModel::nstatic`, the size of the static
partition. -/
def NEMLModel.nstatic {R : Type} [Zero R] (m : NEMLModel R) : Nat :=
  m.stored_static_.size

/-- Modelled from the spec: `NEMLModel::split_state`, the evolving part (the
entries named in `stored_state_`) and the static part (the others). -/
def NEMLModel.split_state {R : Type} [Zero R] (m : NEMLModel R) (h : History R) :
    History R × History R :=
  (h.split m.stored_state_.names true, h.split m.stored_state_.names false)

/-! ## Tensors and the trapezoid rule (`models.h`, spec §2 and §4.2 step 5) -/

/-- Modelled from the spec: the tensor header is not part of the sources.  A
symmetric tensor is its 6 components in the reduced basis, "so tensor
contractions reduce to ordinary matrix-vector products". -/
abbrev Symmetric (R : Type) := Fin 6 → R

/-- Modelled from the spec: a symmetric-symmetric fourth-order map, a 6×6
matrix. -/
abbrev SymSymR4 (R : Type) := Fin 6 → Fin 6 → R

/-- The contraction `a : b` of two symmetric tensors. -/
def Symmetric.contract {R : Type} [LinearOrderedField R] (a b : Symmetric R) : R :=
  ∑ i, a i * b i

/-- Modelled from the spec: `trapezoid_energy` is declared in `models.h`, its
body is not part of the sources; §4.2 step 5 gives
`ΔW = ½(s_np1+s_n):(e_np1-e_n)` and `ΔP = ½(s_np1+s_n):(ep_np1-ep_n)`.
Returns `(ΔW, ΔP)`. -/
def trapezoid_energy {R : Type} [LinearOrderedField R]
    (e_np1 e_n ep_np1 ep_n s_np1 s_n : Symmetric R) : R × R :=
  (1 / 2 * Symmetric.contract (s_np1 + s_n) (e_np1 - e_n),
   1 / 2 * Symmetric.contract (s_np1 + s_n) (ep_np1 - ep_n))

/-! ## The substep integration driver (`SubstepModel_sd`, spec §4.2 and §7) -/

/-- The error kinds of spec §7. -/
inductive NEMLError
  | IncompatibleModels
  | SolverNoConverge
  | SingularJacobian
  | SubstepExhausted
  deriving DecidableEq, Repr

/-- The inputs of a small-strain state update
(`update_sd_state`, `update_step`). -/
structure StepIn (R : Type) where
  e_np1 : Symmetric R
  e_n : Symmetric R
  T_np1 : R
  T_n : R
  t_np1 : R
  t_n : R
  s_n : Symmetric R
  h_n : History R
  u_n : R
  p_n : R

/-- The outputs of a small-strain state update; `nsolve` counts the runs of the
nonlinear solver that produced them. -/
structure StepOut (R : Type) where
  s_np1 : Symmetric R
  h_np1 : History R
  A_np1 : SymSymR4 R
  u_np1 : R
  p_np1 : R
  nsolve : Nat

/-- Modelled from the spec: the bodies of `SubstepModel_sd` are not part of the
sources; `models.h` declares the virtual callbacks.  `TS` is the model's trial
state.  `C` is the elastic relation's stiffness at a temperature, `solve` the
generic Newton routine of §4.1 run on the model's residual (it converges to an
iterate `x` or fails with a solver error), `trial_stress`/`trial_history` read
the elastic trial values off the trial state, `tangent` is the assembly of
§4.3, `inelastic_strain` gives the inelastic strain for a strain, stress and
temperature, and `recombine` joins the tangents of two half steps. -/
structure SubstepModel_sd (R TS : Type) where
  C : R → SymSymR4 R
  max_divide_ : Nat
  setup : StepIn R → TS
  elastic_step : TS → StepIn R → Bool
  trial_stress : TS → Symmetric R
  trial_history : TS → History R
  solve : TS → Except NEMLError (List R)
  update_internal : List R → StepIn R → Symmetric R × History R
  tangent : TS → List R → StepIn R → SymSymR4 R
  inelastic_strain : Symmetric R → Symmetric R → R → Symmetric R
  recombine : SymSymR4 R → SymSymR4 R → SymSymR4 R

/-- Modelled from the spec: `SubstepModel_sd::work_and_energy` (§4.2 step 5),
the accumulated work and dissipation `(u_np1, p_np1)`. -/
def SubstepModel_sd.work_and_energy {R TS : Type} [LinearOrderedField R]
    (m : SubstepModel_sd R TS) (inp : StepIn R) (s_np1 : Symmetric R) : R × R :=
  let d := trapezoid_energy inp.e_np1 inp.e_n
    (m.inelastic_strain inp.e_np1 s_np1 inp.T_np1)
    (m.inelastic_strain inp.e_n inp.s_n inp.T_n) s_np1 inp.s_n
  (inp.u_n + d.1, inp.p_n + d.2)

/-- Modelled from the spec: `SubstepModel_sd::update_step` (§4.2 steps 1-3, 5
and 6): build the trial state; on an elastic step take the elastic trial values
and the elastic stiffness without solving; otherwise solve, decode the iterate
and assemble the tangent; a solver failure is the result. -/
def SubstepModel_sd.update_step {R TS : Type} [LinearOrderedField R]
    (m : SubstepModel_sd R TS) (inp : StepIn R) : Except NEMLError (StepOut R) :=
  let ts := m.setup inp
  if m.elastic_step ts inp then
    let s := m.trial_stress ts
    let w := m.work_and_energy inp s
    Except.ok { s_np1 := s, h_np1 := m.trial_history ts, A_np1 := m.C inp.T_np1,
                u_np1 := w.1, p_np1 := w.2, nsolve := 0 }
  else
    match m.solve ts with
    | Except.error err => Except.error err
    | Except.ok x =>
      let sh := m.update_internal x inp
      let w := m.work_and_energy inp sh.1
      Except.ok { s_np1 := sh.1, h_np1 := sh.2, A_np1 := m.tangent ts x inp,
                  u_np1 := w.1, p_np1 := w.2, nsolve := 1 }

/-- The first half of a bisected increment: strain, temperature and time run to
the midpoint. -/
def StepIn.firstHalf {R : Type} [LinearOrderedField R] (inp : StepIn R) : StepIn R :=
  { inp with
    e_np1 := fun i => (inp.e_n i + inp.e_np1 i) / 2
    T_np1 := (inp.T_n + inp.T_np1) / 2
    t_np1 := (inp.t_n + inp.t_np1) / 2 }

/-- The second half of a bisected increment: it starts at the midpoint from the
state the first half reached. -/
def StepIn.secondHalf {R : Type} [LinearOrderedField R] (inp : StepIn R) (o : StepOut R) :
    StepIn R :=
  { inp with
    e_n := fun i => (inp.e_n i + inp.e_np1 i) / 2
    T_n := (inp.T_n + inp.T_np1) / 2
    t_n := (inp.t_n + inp.t_np1) / 2
    s_n := o.s_np1
    h_n := o.h_np1
    u_n := o.u_np1
    p_n := o.p_np1 }

/-- The result of an increment integrated as two halves. -/
def SubstepModel_sd.join {R TS : Type} (m : SubstepModel_sd R TS) (o1 o2 : StepOut R) :
    StepOut R :=
  { o2 with A_np1 := m.recombine o1.A_np1 o2.A_np1, nsolve := o1.nsolve + o2.nsolve }

/-- Modelled from the spec: the adaptive driver of §4.2 step 4 with `depth`
subdivisions still allowed.  A `SolverNoConverge` failure is recovered by
bisection while subdivisions remain and becomes `SubstepExhausted` when none
does; every other failure is surfaced as it is (§7). -/
def SubstepModel_sd.integrate {R TS : Type} [LinearOrderedField R]
    (m : SubstepModel_sd R TS) : Nat → StepIn R → Except NEMLError (StepOut R)
  | depth, inp =>
    match m.update_step inp with
    | Except.ok out => Except.ok out
    | Except.error NEMLError.SolverNoConverge =>
      match depth with
      | 0 => Except.error NEMLError.SubstepExhausted
      | k + 1 =>
        match SubstepModel_sd.integrate m k inp.firstHalf with
        | Except.error err => Except.error err
        | Except.ok o1 =>
          match SubstepModel_sd.integrate m k (inp.secondHalf o1) with
          | Except.error err => Except.error err
          | Except.ok o2 => Except.ok (m.join o1 o2)
    | Except.error err => Except.error err

/-- Modelled from the spec: `SubstepModel_sd::update_sd_state`, the driver with
`max_divide_` subdivisions allowed. -/
def SubstepModel_sd.update_sd_state {R TS : Type} [LinearOrderedField R]
    (m : SubstepModel_sd R TS) (inp : StepIn R) : Except NEMLError (StepOut R) :=
  m.integrate m.max_divide_ inp

/-- A result is resolved when it comes from converged steps only: one
successful `update_step`, or a non-converged step replaced by its two resolved
halves.  The first half runs from the state at `n` to the midpoint of strain,
temperature and time; the second half runs from the midpoint to `n+1` and
starts from the stress, history, work and dissipation the first half reached;
stress, history, work and dissipation of the whole are those of the second
half. -/
inductive SubstepModel_sd.Resolved {R TS : Type} [LinearOrderedField R]
    (m : SubstepModel_sd R TS) : StepIn R → StepOut R → Prop
  | step (inp : StepIn R) (out : StepOut R) :
      m.update_step inp = Except.ok out → SubstepModel_sd.Resolved m inp out
  | bisect (inp : StepIn R) (o1 o2 : StepOut R) :
      m.update_step inp = Except.error NEMLError.SolverNoConverge →
      SubstepModel_sd.Resolved m
        ({ e_np1 := fun i => (inp.e_n i + inp.e_np1 i) / 2, e_n := inp.e_n,
                T_np1 := (inp.T_n + inp.T_np1) / 2, T_n := inp.T_n,
                t_np1 := (inp.t_n + inp.t_np1) / 2, t_n := inp.t_n,
                s_n := inp.s_n, h_n := inp.h_n, u_n := inp.u_n, p_n := inp.p_n } : StepIn R) o1 →
      SubstepModel_sd.Resolved m
        ({ e_np1 := inp.e_np1, e_n := fun i => (inp.e_n i + inp.e_np1 i) / 2,
                T_np1 := inp.T_np1, T_n := (inp.T_n + inp.T_np1) / 2,
                t_np1 := inp.t_np1, t_n := (inp.t_n + inp.t_np1) / 2,
                s_n := o1.s_np1, h_n := o1.h_np1, u_n := o1.u_np1, p_n := o1.p_np1 } : StepIn R) o2 →
      SubstepModel_sd.Resolved m inp
        ({ s_np1 := o2.s_np1, h_np1 := o2.h_np1, A_np1 := m.recombine o1.A_np1 o2.A_np1,
                u_np1 := o2.u_np1, p_np1 := o2.p_np1, nsolve := o1.nsolve + o2.nsolve } : StepOut R)

/-! ## Regime switching (`KMRegimeModel`, spec §4.7) -/

/-- The interface `NEMLModel_sd` of a sub-model: its state update. -/
structure NEMLModel_sd (R : Type) where
  update_sd_state : StepIn R → Except NEMLError (StepOut R)

/-- Members of `KMRegimeModel`.  The body of the private method
`activation_energy_` is not part of the sources; it is a parameter, a function
of `(e_np1, e_n, T_np1, t_np1, t_n)`. -/
structure KMRegimeModel (R : Type) where
  models_ : List (NEMLModel_sd R)
  gs_ : List R
  kboltz_ : R
  b_ : R
  eps0_ : R
  activation_energy_ : Symmetric R → Symmetric R → R → R → R → R

/-- Modelled from the spec: the index of the threshold interval that contains
the activation energy `g`, the first `i` with `g < gs_[i]`, and the number of
thresholds when there is none. -/
def KMRegimeModel.regime {R : Type} [LinearOrderedField R] : List R → R → Nat
  | [], _ => 0
  | g0 :: rest, g => if g < g0 then 0 else KMRegimeModel.regime rest g + 1

/-- Modelled from the spec: `KMRegimeModel::update_sd_state` (§4.7) "dispatches
the entire step to the sub-model whose threshold interval contains that
value"; the inputs, history included, are passed on as they are.  A model
vector too short for the selected regime is a configuration error. -/
def KMRegimeModel.update_sd_state {R : Type} [LinearOrderedField R]
    (km : KMRegimeModel R) (inp : StepIn R) : Except NEMLError (StepOut R) :=
  let g := km.activation_energy_ inp.e_np1 inp.e_n inp.T_np1 inp.t_np1 inp.t_n
  match km.models_[KMRegimeModel.regime km.gs_ g]? with
  | some sub => sub.update_sd_state inp
  | none => Except.error NEMLError.IncompatibleModels

/-! ## Sequences of `ParameterSet` calls and the type of a stored value -/

/-- The `ParamType` of the alternative a variant holds. -/
def param_type.kind {R : Type} : param_type R → ParamType
  | param_type.double _ => ParamType.TYPE_DOUBLE
  | param_type.int _ => ParamType.TYPE_INT
  | param_type.bool _ => ParamType.TYPE_BOOL
  | param_type.vec_double _ => ParamType.TYPE_VEC_DOUBLE
  | param_type.object_ptr _ => ParamType.TYPE_NEML_OBJECT

/-- A parameter set as the constructor leaves it (its body is not part of the
sources): the object type and no name, declared type, value or deferred
parameter. -/
def ParameterSet.empty {R : Type} (type : String) : ParameterSet R :=
  ParameterSet.mk type [] [] [] []

/-- One call of `add_parameter<T>`, `add_optional_parameter<T>` or
`assign_parameter`, with its arguments. -/
inductive ParamCall (R : Type)
  | add_parameter (T : CppType) (name : String)
  | add_optional_parameter (T : CppType) (name : String) (value : param_type R)
  | assign_parameter (name : String) (value : param_type R)

/-- The parameter set after one call. -/
def ParameterSet.call {R : Type} (ps : ParameterSet R) : ParamCall R → ParameterSet R
  | ParamCall.add_parameter T name => ps.add_parameter T name
  | ParamCall.add_optional_parameter T name value => ps.add_optional_parameter T name value
  | ParamCall.assign_parameter name value => ps.assign_parameter name value

/-- The parameter set after a sequence of calls, made in order. -/
def ParameterSet.calls {R : Type} (ps : ParameterSet R) (cs : List (ParamCall R)) :
    ParameterSet R :=
  cs.foldl ParameterSet.call ps

/-- The type invariant: every name that has a declared type and an assigned
value holds a value whose alternative is the declared `ParamType`. -/
def ParameterSet.TypeInvariant {R : Type} (ps : ParameterSet R) : Prop :=
  ∀ (name : String) (t : ParamType) (v : param_type R),
    StdMap.find ps.param_types_ name = some t → StdMap.find ps.params_ name = some v →
    v.kind = t

/-- A call that respects the declared types on the parameter set it is made on:
a declaration agrees with the value already stored under the name, a default
holds the declared type, an assigned value holds the type already declared for
the name. -/
def ParamCall.WellTyped {R : Type} (ps : ParameterSet R) : ParamCall R → Prop
  | ParamCall.add_parameter T name =>
    ∀ v, StdMap.find ps.params_ name = some v → v.kind = GetParamType T
  | ParamCall.add_optional_parameter T _ value => value.kind = GetParamType T
  | ParamCall.assign_parameter name value =>
    ∀ t, StdMap.find ps.param_types_ name = some t → value.kind = t

/-- Every call of the sequence respects the declared types at the moment it is
made. -/
def ParameterSet.WellTypedCalls {R : Type} : ParameterSet R → List (ParamCall R) → Prop
  | _, [] => True
  | ps, c :: cs => c.WellTyped ps ∧ ParameterSet.WellTypedCalls (ps.call c) cs

/-! ## The structured entry points of `NEMLModel` (`models.h`) -/

/-- A skew tensor in the reduced 3-component basis (the tensor header is not
part of the sources). -/
abbrev Skew (R : Type) := Fin 3 → R

/-- A symmetric-skew fourth-order map, a 6×3 matrix. -/
abbrev SymSkewR4 (R : Type) := Fin 6 → Fin 3 → R

/-- The arguments `NEMLModel::update_sd_interface` takes by non-const
reference. -/
structure SdInterfaceRefs (R : Type) where
  s_np1 : Symmetric R
  s_n : Symmetric R
  h_np1 : History R
  A_np1 : SymSymR4 R
  u_np1 : R
  p_np1 : R

/-- The arguments `NEMLModel::update_ld_inc_interface` takes by non-const
reference. -/
structure LdInterfaceRefs (R : Type) where
  s_np1 : Symmetric R
  h_np1 : History R
  A_np1 : SymSymR4 R
  B_np1 : SymSkewR4 R
  u_np1 : R
  p_np1 : R

/-- `NEMLModel::update_sd_interface`, whose body in `models.h` is `{}`: `refs`
are the by-reference arguments on entry, the result is their state on return;
an empty body throws nothing. -/
def NEMLModel.update_sd_interface {R : Type} (_m : NEMLModel R)
    (_e_np1 _e_n : Symmetric R) (_T_np1 _T_n _t_np1 _t_n : R) (_h_n : History R)
    (_u_n _p_n : R) (refs : SdInterfaceRefs R) : Except NEMLError (SdInterfaceRefs R) :=
  Except.ok refs

/-- `NEMLModel::update_ld_inc_interface`, whose body in `models.h` is `{}`. -/
def NEMLModel.update_ld_inc_interface {R : Type} (_m : NEMLModel R)
    (_d_np1 _d_n : Symmetric R) (_w_np1 _w_n : Skew R) (_T_np1 _T_n _t_np1 _t_n : R)
    (_s_n : Symmetric R) (_h_n : History R) (_u_n _p_n : R) (refs : LdInterfaceRefs R) :
    Except NEMLError (LdInterfaceRefs R) :=
  Except.ok refs

/-! ## Sample collaborators -/

/-- A yield surface of size `n` whose calls all return status `c`: `f` writes
`fv`, the derivative routines leave their array as passed. -/
def constSurface (n : Nat) (c : Int) (fv : ℚ) : YieldSurface ℚ :=
  { nhist := n
    f := fun _ _ _ => (c, fv)
    df_ds := fun _ _ _ b => (c, b)
    df_dq := fun _ _ _ b => (c, b)
    df_dsds := fun _ _ _ b => (c, b)
    df_dsdq := fun _ _ _ b => (c, b)
    df_dqds := fun _ _ _ b => (c, b)
    df_dqdq := fun _ _ _ b => (c, b) }

/-- A hardening rule of size `n` whose calls all return status `c`;
`init_hist` zeroes the first `n` entries. -/
def constHardening (n : Nat) (c : Int) : HardeningRule ℚ :=
  { nhist := n
    init_hist := fun h => (c, fill n 0 h)
    q := fun _ _ b => (c, b)
    dq_da := fun _ _ b => (c, b) }

/-- A non-associative hardening rule with `ninter` interior variables and
`nhist` history variables whose calls all return status `c`. -/
def constNAHardening (ninter nhist : Nat) (c : Int) : NonAssociativeHardening ℚ :=
  { ninter := ninter
    nhist := nhist
    init_hist := fun h => (c, fill nhist 0 h)
    q := fun _ _ b => (c, b)
    dq_da := fun _ _ b => (c, b)
    h := fun _ _ _ b => (c, b)
    dh_ds := fun _ _ _ b => (c, b)
    dh_da := fun _ _ _ b => (c, b) }

/-- A Perzyna rule with surface size `ns`, hardening size `nh`, hardening
status `c`, linear `g` and unit viscosity. -/
def samplePerzyna (ns nh : Nat) (c : Int) : PerzynaFlowRule ℚ :=
  { surface_ := constSurface ns 0 1
    hardening_ := constHardening nh c
    g_ := { g := fun f => f, dg := fun _ => 1 }
    eta_ := 1 }

/-- A Chaboche rule with surface size `ns`, hardening sizes `ninter`, `nhist`
and hardening status `c`. -/
def sampleChaboche (ns ninter nhist : Nat) (c : Int) : ChabocheFlowRule ℚ :=
  { surface_ := constSurface ns 0 1
    hardening_ := constNAHardening ninter nhist c
    fluidity_ := ConstantFluidity 1
    n_ := 1 }

/-- A substep model over `ℚ` whose trial state is the time increment: the step
is elastic when the increment is not positive, the solver converges when the
increment is at most `1/2` and fails to converge otherwise; stress and history
are carried over unchanged. -/
def sampleSubstep (max_divide : Nat) : SubstepModel_sd ℚ ℚ :=
  { C := fun _ i j => if i = j then 1 else 0
    max_divide_ := max_divide
    setup := fun inp => inp.t_np1 - inp.t_n
    elastic_step := fun ts _ => decide (ts ≤ 0)
    trial_stress := fun _ _ => 0
    trial_history := fun _ => History.blank
    solve := fun ts => if ts ≤ 1 / 2 then Except.ok [] else Except.error NEMLError.SolverNoConverge
    update_internal := fun _ inp => (inp.s_n, inp.h_n)
    tangent := fun _ _ _ i j => if i = j then 2 else 0
    inelastic_strain := fun _ _ _ _ => 0
    recombine := fun _ b => b }

/-- An increment from time `t0` to time `t1` at zero strain, stress and
energy. -/
def sampleStep (t0 t1 : ℚ) : StepIn ℚ :=
  { e_np1 := fun _ => 0, e_n := fun _ => 0, T_np1 := 0, T_n := 0, t_np1 := t1, t_n := t0,
    s_n := fun _ => 0, h_n := History.blank, u_n := 0, p_n := 0 }

/-- The state the sample model reaches after one converged solve from rest. -/
def sampleOut : StepOut ℚ :=
  { s_np1 := fun _ => 0, h_np1 := History.blank, A_np1 := fun i j => if i = j then 2 else 0,
    u_np1 := 0, p_np1 := 0, nsolve := 1 }

/-- A sub-model that resolves every step to the sample state and marks it with
its own number `k`. -/
def sampleSub (k : Nat) : NEMLModel_sd ℚ :=
  { update_sd_state := fun _ => Except.ok { sampleOut with nsolve := k } }

/-- A regime model with three sub-models and the thresholds 1 and 2; the
activation energy of a step is read off its temperature `T_np1`. -/
def sampleKM : KMRegimeModel ℚ :=
  { models_ := [sampleSub 0, sampleSub 1, sampleSub 2]
    gs_ := [1, 2]
    kboltz_ := 1
    b_ := 1
    eps0_ := 1
    activation_energy_ := fun _ _ T _ _ => T }

/-- A step whose activation energy under `sampleKM` is `3/2`. -/
def sampleRegimeStep : StepIn ℚ :=
  { sampleStep 0 1 with T_np1 := 3 / 2 }

/-- A model with the evolving variables `alpha` (one entry, 1 at time zero) and
`backstress` (two entries, 2 and 3) and the static variable `rotation` (one
entry, 4). -/
def sampleModel : NEMLModel Int :=
  { state_vars := [("alpha", [1]), ("backstress", [2, 3])]
    static_vars := [("rotation", [4])] }

/-- The history `sampleModel` populates. -/
def sampleHistory : History Int :=
  { entries := [("alpha", [0]), ("backstress", [0, 0]), ("rotation", [0])] }

/-- A parameter set with no assigned value and one deferred parameter,
`elastic`. -/
def samplePS : ParameterSet Int :=
  ParameterSet.mk "model" [] [] [] [("elastic", ParameterSet.mk "elasticity" [] [] [] [])]

/-- Dense row-major matrix routines: `mat_vec_trans A m b n c` puts
`Aᵀ·b` (with `A` of `n` rows and `m` columns) into the first `m` entries of
`c`, `mat_mat m n k A B C` puts the `m×n` product of the `m×k` matrix `A` and
the `k×n` matrix `B` into the first `m·n` entries of `C`. -/
def sampleMath {R : Type} [LinearOrderedField R] : NemlMath R :=
  { mat_vec_trans := fun A m b n c =>
      (List.range m).map (fun i =>
        ((List.range n).map (fun j => A.getD (j * m + i) 0 * b.getD j 0)).sum) ++ c.drop m
    mat_mat := fun m n k A B C =>
      (List.range (m * n)).map (fun idx =>
        ((List.range k).map (fun l =>
          A.getD (idx / n * k + l) 0 * B.getD (l * n + idx % n) 0)).sum) ++ C.drop (m * n) }

/-- A hardening rule of size `n` over any scalar type whose calls succeed and
leave their array as passed. -/
def plainHardening {R : Type} (n : Nat) : HardeningRule R :=
  { nhist := n
    init_hist := fun h => (0, h)
    q := fun _ _ b => (0, b)
    dq_da := fun _ _ b => (0, b) }

/-- A Chaboche rule over any ordered field with one interior variable and two
history variables: the yield function is `fv`, `df_dq` writes `[5]`, the
Jacobian of `q` is the row `[2, 3]`, the fluidity is `2 + 7·a` with derivative
7, and the exponent is `n`. -/
def sampleRateRule {R : Type} [LinearOrderedField R] (fv n : R) : ChabocheFlowRule R :=
  { surface_ :=
      { nhist := 1
        f := fun _ _ _ => (0, fv)
        df_ds := fun _ _ _ b => (0, b)
        df_dq := fun _ _ _ _ => (0, [5])
        df_dsds := fun _ _ _ b => (0, b)
        df_dsdq := fun _ _ _ b => (0, b)
        df_dqds := fun _ _ _ b => (0, b)
        df_dqdq := fun _ _ _ b => (0, b) }
    hardening_ :=
      { ninter := 1
        nhist := 2
        init_hist := fun h => (0, fill 2 0 h)
        q := fun _ _ b => (0, b)
        dq_da := fun _ _ _ => (0, [2, 3])
        h := fun _ _ _ b => (0, b)
        dh_ds := fun _ _ _ b => (0, b)
        dh_da := fun _ _ _ b => (0, b) }
    fluidity_ := { eta := fun a => 2 + 7 * a, deta := fun _ => 7 }
    n_ := n }

/-- A substep model over `ℚ` whose state is carried from step to step: the
trial state is the whole input, no step is elastic, the solver converges when
the time increment is at most `1/2` and then returns the previous stress
component plus 1; the new stress has that value in every component and the
history records it; all strain is inelastic. -/
def sampleCarry (max_divide : Nat) : SubstepModel_sd ℚ (StepIn ℚ) :=
  { C := fun _ i j => if i = j then 1 else 0
    max_divide_ := max_divide
    setup := fun inp => inp
    elastic_step := fun _ _ => false
    trial_stress := fun ts => ts.s_n
    trial_history := fun ts => ts.h_n
    solve := fun ts =>
      if ts.t_np1 - ts.t_n ≤ 1 / 2 then Except.ok [ts.s_n 0 + 1]
      else Except.error NEMLError.SolverNoConverge
    update_internal := fun x _ =>
      (fun _ => x.getD 0 0, { entries := [("stress", [x.getD 0 0])] })
    tangent := fun _ _ _ i j => if i = j then 2 else 0
    inelastic_strain := fun e _ _ => e
    recombine := fun _ b => b }

/-- An increment from time 0 to time 1 in which every strain component goes
from 0 to 1, starting at zero stress, work and dissipation. -/
def sampleLoad : StepIn ℚ :=
  { e_np1 := fun _ => 1, e_n := fun _ => 0, T_np1 := 0, T_n := 0, t_np1 := 1, t_n := 0,
    s_n := fun _ => 0, h_n := { entries := [("stress", [0])] }, u_n := 0, p_n := 0 }

/-- The state `sampleCarry` reaches after one converged solve that ends at
stress `sv` with accumulated work and dissipation `w`. -/
def sampleCarryOut (sv w : ℚ) : StepOut ℚ :=
  { s_np1 := fun _ => sv, h_np1 := { entries := [("stress", [sv])] },
    A_np1 := fun i j => if i = j then 2 else 0, u_np1 := w, p_np1 := w, nsolve := 1 }

/-- The `pow` of `<cmath>` in double arithmetic as far as underflow goes, for a
natural exponent `y`: the exact power, and 0 when the exact power lies below
`2^-1075`, half the smallest positive double (round to nearest). -/
def underflowPow (x y : ℚ) : ℚ :=
  if x ^ y.num.toNat < 1 / 2 ^ 1075 then 0 else x ^ y.num.toNat

/-! # Theorems -/

/-! ## History initialisation of the flow rules -/

/-- C1: `PerzynaFlowRule::init_hist` returns the `INCOMPATIBLE_MODELS` code when
the yield surface's history size differs from the hardening rule's, and
otherwise returns the code of the hardening rule's `init_hist(h)` with `h`
holding what that call wrote. -/
theorem C1_perzyna_init_hist {R : Type} (INCOMPATIBLE_MODELS : Int)
    (m : PerzynaFlowRule R) (h : List R) :
    (m.surface_.nhist ≠ m.hardening_.nhist →
      (m.init_hist INCOMPATIBLE_MODELS h).ier = INCOMPATIBLE_MODELS) ∧
    (m.surface_.nhist = m.hardening_.nhist →
      (m.init_hist INCOMPATIBLE_MODELS h).ier = (m.hardening_.init_hist h).1 ∧
      (m.init_hist INCOMPATIBLE_MODELS h).out = (m.hardening_.init_hist h).2) := by
  constructor
  · intro hne
    simp [PerzynaFlowRule.init_hist, hne]
  · intro heq
    simp [PerzynaFlowRule.init_hist, heq]

/-- C1 at concrete rules: sizes 1 and 2 give the error code `-1`; sizes 2 and 2
give the hardening rule's status `0` and the zeroed history. -/
theorem C1_perzyna_init_hist_witness :
    ((samplePerzyna 1 2 0).init_hist (-1) [5, 5]).ier = -1 ∧
    ((samplePerzyna 2 2 0).init_hist (-1) [5, 5]).ier = 0 ∧
    ((samplePerzyna 2 2 0).init_hist (-1) [5, 5]).out = [0, 0] :=
  ⟨(C1_perzyna_init_hist (-1) (samplePerzyna 1 2 0) [5, 5]).1 (by decide),
   ((C1_perzyna_init_hist (-1) (samplePerzyna 2 2 0) [5, 5]).2 rfl).1.trans rfl,
   ((C1_perzyna_init_hist (-1) (samplePerzyna 2 2 0) [5, 5]).2 rfl).2.trans rfl⟩

/-- C2 as stated fails: with a surface of size 7 and a hardening rule with 7
interior variables and 13 history variables the sizes `surface.nhist()` and
`hardening.nhist()` differ, yet the call returns the hardening rule's status 0
and not the error code `-1`; with 13 interior and 7 history variables the two
sizes agree, yet the call returns the error code and not the hardening rule's
status. -/
theorem C2_chaboche_init_hist_counterexample :
    ¬ ((sampleChaboche 7 7 13 0).surface_.nhist ≠ (sampleChaboche 7 7 13 0).hardening_.nhist →
        ((sampleChaboche 7 7 13 0).init_hist (-1) [5]).ier = -1) ∧
    ¬ ((sampleChaboche 7 13 7 0).surface_.nhist = (sampleChaboche 7 13 7 0).hardening_.nhist →
        ((sampleChaboche 7 13 7 0).init_hist (-1) [5]).ier =
          ((sampleChaboche 7 13 7 0).hardening_.init_hist [5]).1) := by
  constructor
  · intro hc
    exact absurd (hc (by decide)) (by decide)
  · intro hc
    exact absurd (hc rfl) (by decide)

/-- C2, amended: `ChabocheFlowRule::init_hist` returns the `INCOMPATIBLE_MODELS`
code when the yield surface's history size differs from the hardening rule's
number of interior variables `ninter()`, and otherwise returns the code of the
hardening rule's `init_hist(h)` with `h` holding what that call wrote. -/
theorem C2_chaboche_init_hist {R : Type} (INCOMPATIBLE_MODELS : Int)
    (m : ChabocheFlowRule R) (h : List R) :
    (m.surface_.nhist ≠ m.hardening_.ninter →
      (m.init_hist INCOMPATIBLE_MODELS h).ier = INCOMPATIBLE_MODELS) ∧
    (m.surface_.nhist = m.hardening_.ninter →
      (m.init_hist INCOMPATIBLE_MODELS h).ier = (m.hardening_.init_hist h).1 ∧
      (m.init_hist INCOMPATIBLE_MODELS h).out = (m.hardening_.init_hist h).2) := by
  constructor
  · intro hne
    simp [ChabocheFlowRule.init_hist, hne]
  · intro heq
    simp [ChabocheFlowRule.init_hist, heq]

/-- C2 amended, at concrete rules: surface size 7 against 13 interior variables
gives the error code; 7 against 7 gives the hardening rule's status, whatever
the number of history variables. -/
theorem C2_chaboche_init_hist_witness :
    ((sampleChaboche 7 13 7 0).init_hist (-1) [5]).ier = -1 ∧
    ((sampleChaboche 7 7 13 0).init_hist (-1) [5]).ier = 0 :=
  ⟨(C2_chaboche_init_hist (-1) (sampleChaboche 7 13 7 0) [5]).1 (by decide),
   ((C2_chaboche_init_hist (-1) (sampleChaboche 7 7 13 0) [5]).2 rfl).1.trans rfl⟩

/-- C3: when the size guard of `PerzynaFlowRule::init_hist` or of
`ChabocheFlowRule::init_hist` fires, the call returns the
`INCOMPATIBLE_MODELS` code, makes no collaborator call (the hardening rule's
`init_hist` is not invoked) and leaves the buffer `h` as it was on entry. -/
theorem C3_incompatible_models_atomic {R : Type} (INCOMPATIBLE_MODELS : Int)
    (p : PerzynaFlowRule R) (c : ChabocheFlowRule R) (h : List R) :
    (p.surface_.nhist ≠ p.hardening_.nhist →
      p.init_hist INCOMPATIBLE_MODELS h =
        { ier := INCOMPATIBLE_MODELS, out := h, calls := [] }) ∧
    (c.surface_.nhist ≠ c.hardening_.ninter →
      c.init_hist INCOMPATIBLE_MODELS h =
        { ier := INCOMPATIBLE_MODELS, out := h, calls := [] }) := by
  constructor
  · intro hne
    simp [PerzynaFlowRule.init_hist, hne]
  · intro hne
    simp [ChabocheFlowRule.init_hist, hne]

/-- C3 at concrete rules with mismatched sizes: the buffer `[5, 5]` comes back
untouched and no call is recorded. -/
theorem C3_incompatible_models_atomic_witness :
    (samplePerzyna 1 2 0).init_hist (-1) [5, 5] = { ier := -1, out := [5, 5], calls := [] } ∧
    (sampleChaboche 7 13 7 0).init_hist (-1) [5, 5] =
      { ier := -1, out := [5, 5], calls := [] } :=
  ⟨(C3_incompatible_models_atomic (-1) (samplePerzyna 1 2 0) (sampleChaboche 7 13 7 0)
      [5, 5]).1 (by decide),
   (C3_incompatible_models_atomic (-1) (samplePerzyna 1 2 0) (sampleChaboche 7 13 7 0)
      [5, 5]).2 (by decide)⟩

/-! ## Status codes of the flow-rule routines -/

/-- C4 as stated fails: on well-formed inputs (six stress components, one
history variable) with a hardening rule whose `q` returns the error status 1,
`PerzynaFlowRule::y` and `ChabocheFlowRule::y` make that failed call and still
return 0, and `PerzynaFlowRule::g` returns the status 0 of its final `df_ds`
call. -/
theorem C4_failures_propagate_counterexample :
    (((samplePerzyna 1 1 1).hardening_.q [0] 0 (zeros 1)).1 = 1 ∧
      ¬ ((∃ c ∈ ((samplePerzyna 1 1 1).y [0, 0, 0, 0, 0, 0] [0] 0).calls, c.2 ≠ 0) →
        ((samplePerzyna 1 1 1).y [0, 0, 0, 0, 0, 0] [0] 0).ier ≠ 0)) ∧
    (((sampleChaboche 1 1 1 1).hardening_.q [0] 0 (zeros 1)).1 = 1 ∧
      ¬ ((∃ c ∈ ((sampleChaboche 1 1 1 1).y (fun x _ => x) [0, 0, 0, 0, 0, 0] [0] 0).calls,
          c.2 ≠ 0) →
        ((sampleChaboche 1 1 1 1).y (fun x _ => x) [0, 0, 0, 0, 0, 0] [0] 0).ier ≠ 0)) ∧
    ¬ ((∃ c ∈ ((samplePerzyna 1 1 1).g [0, 0, 0, 0, 0, 0] [0] 0 [0, 0, 0, 0, 0, 0]).calls,
          c.2 ≠ 0) →
        ((samplePerzyna 1 1 1).g [0, 0, 0, 0, 0, 0] [0] 0 [0, 0, 0, 0, 0, 0]).ier ≠ 0) := by
  refine ⟨⟨rfl, fun hc => ?_⟩, ⟨rfl, fun hc => ?_⟩, fun hc => ?_⟩
  · exact hc ⟨(Call.hardening_q, 1), by simp [PerzynaFlowRule.y, samplePerzyna, constHardening],
      by decide⟩ rfl
  · exact hc ⟨(Call.hardening_q, 1),
      by simp [ChabocheFlowRule.y, sampleChaboche, constNAHardening], by decide⟩ rfl
  · exact hc ⟨(Call.hardening_q, 1), by simp [PerzynaFlowRule.g, samplePerzyna, constHardening],
      by decide⟩ rfl

/-- C4, amended: a routine that ends in a collaborator call returns exactly the
status that call returned (Perzyna `g`, `dg_ds`, `h`, `dh_ds` and Chaboche `g`,
`dg_ds`: the yield-surface call at the `q` of the hardening rule; Chaboche `h`,
`dh_ds`, `dh_da`: the hardening-rule call), so a failure of that call reaches
the caller; the other routines (`y`, `dy_ds`, `dy_da`, `dg_da` of both rules
and Perzyna `dh_da`) return 0 on every input.  For each routine the calls it
makes are listed with the status each collaborator returned. -/
theorem C4_status_of_routines {R : Type} [LinearOrderedField R] (pow : R → R → R)
    (nm : NemlMath R) (p : PerzynaFlowRule R) (c : ChabocheFlowRule R)
    (s alpha : List R) (T : R) (buf : List R) :
    ((p.g s alpha T buf).ier =
        (p.surface_.df_ds s (p.hardening_.q alpha T (zeros p.nhist)).2 T buf).1 ∧
     (p.g s alpha T buf).calls =
       [(Call.hardening_q, (p.hardening_.q alpha T (zeros p.nhist)).1),
        (Call.surface_df_ds,
          (p.surface_.df_ds s (p.hardening_.q alpha T (zeros p.nhist)).2 T buf).1)]) ∧
    ((p.dg_ds s alpha T buf).ier =
        (p.surface_.df_dsds s (p.hardening_.q alpha T (zeros p.nhist)).2 T buf).1 ∧
     (p.dg_ds s alpha T buf).calls =
       [(Call.hardening_q, (p.hardening_.q alpha T (zeros p.nhist)).1),
        (Call.surface_df_dsds,
          (p.surface_.df_dsds s (p.hardening_.q alpha T (zeros p.nhist)).2 T buf).1)]) ∧
    ((p.h s alpha T buf).ier =
        (p.surface_.df_dq s (p.hardening_.q alpha T (zeros p.nhist)).2 T buf).1 ∧
     (p.h s alpha T buf).calls =
       [(Call.hardening_q, (p.hardening_.q alpha T (zeros p.nhist)).1),
        (Call.surface_df_dq,
          (p.surface_.df_dq s (p.hardening_.q alpha T (zeros p.nhist)).2 T buf).1)]) ∧
    ((p.dh_ds s alpha T buf).ier =
        (p.surface_.df_dqds s (p.hardening_.q alpha T (zeros p.nhist)).2 T buf).1 ∧
     (p.dh_ds s alpha T buf).calls =
       [(Call.hardening_q, (p.hardening_.q alpha T (zeros p.nhist)).1),
        (Call.surface_df_dqds,
          (p.surface_.df_dqds s (p.hardening_.q alpha T (zeros p.nhist)).2 T buf).1)]) ∧
    ((c.g s alpha T buf).ier =
        (c.surface_.df_ds s (c.hardening_.q alpha T (zeros c.hardening_.ninter)).2 T buf).1 ∧
     (c.g s alpha T buf).calls =
       [(Call.hardening_q, (c.hardening_.q alpha T (zeros c.hardening_.ninter)).1),
        (Call.surface_df_ds,
          (c.surface_.df_ds s (c.hardening_.q alpha T (zeros c.hardening_.ninter)).2 T buf).1)]) ∧
    ((c.dg_ds s alpha T buf).ier =
        (c.surface_.df_dsds s (c.hardening_.q alpha T (zeros c.hardening_.ninter)).2 T buf).1 ∧
     (c.dg_ds s alpha T buf).calls =
       [(Call.hardening_q, (c.hardening_.q alpha T (zeros c.hardening_.ninter)).1),
        (Call.surface_df_dsds,
          (c.surface_.df_dsds s (c.hardening_.q alpha T (zeros c.hardening_.ninter)).2 T buf).1)]) ∧
    ((c.h s alpha T buf).ier = (c.hardening_.h s alpha T buf).1 ∧
     (c.h s alpha T buf).calls =
       [(Call.hardening_h, (c.hardening_.h s alpha T buf).1)]) ∧
    ((c.dh_ds s alpha T buf).ier = (c.hardening_.dh_ds s alpha T buf).1 ∧
     (c.dh_ds s alpha T buf).calls =
       [(Call.hardening_dh_ds, (c.hardening_.dh_ds s alpha T buf).1)]) ∧
    ((c.dh_da s alpha T buf).ier = (c.hardening_.dh_da s alpha T buf).1 ∧
     (c.dh_da s alpha T buf).calls =
       [(Call.hardening_dh_da, (c.hardening_.dh_da s alpha T buf).1)]) ∧
    ((p.y s alpha T).ier = 0 ∧
     (p.y s alpha T).calls =
       [(Call.hardening_q, (p.hardening_.q alpha T (zeros p.nhist)).1),
        (Call.surface_f, (p.surface_.f s (p.hardening_.q alpha T (zeros p.nhist)).2 T).1)]) ∧
    ((p.dy_ds s alpha T buf).ier = 0 ∧
     (p.dy_ds s alpha T buf).calls =
       if p.g_.g (p.surface_.f s (p.hardening_.q alpha T (zeros p.nhist)).2 T).2 > 0 then
         [(Call.hardening_q, (p.hardening_.q alpha T (zeros p.nhist)).1),
          (Call.surface_f, (p.surface_.f s (p.hardening_.q alpha T (zeros p.nhist)).2 T).1),
          (Call.surface_df_ds,
            (p.surface_.df_ds s (p.hardening_.q alpha T (zeros p.nhist)).2 T (fill 6 0 buf)).1)]
       else
         [(Call.hardening_q, (p.hardening_.q alpha T (zeros p.nhist)).1),
          (Call.surface_f, (p.surface_.f s (p.hardening_.q alpha T (zeros p.nhist)).2 T).1)]) ∧
    ((p.dy_da nm s alpha T buf).ier = 0 ∧
     (p.dy_da nm s alpha T buf).calls =
       if p.g_.g (p.surface_.f s (p.hardening_.q alpha T (zeros p.nhist)).2 T).2 > 0 then
         [(Call.hardening_q, (p.hardening_.q alpha T (zeros p.nhist)).1),
          (Call.surface_f, (p.surface_.f s (p.hardening_.q alpha T (zeros p.nhist)).2 T).1),
          (Call.hardening_dq_da, (p.hardening_.dq_da alpha T (zeros (p.nhist * p.nhist))).1),
          (Call.surface_df_dq,
            (p.surface_.df_dq s (p.hardening_.q alpha T (zeros p.nhist)).2 T (zeros p.nhist)).1)]
       else
         [(Call.hardening_q, (p.hardening_.q alpha T (zeros p.nhist)).1),
          (Call.surface_f, (p.surface_.f s (p.hardening_.q alpha T (zeros p.nhist)).2 T).1)]) ∧
    ((p.dg_da nm s alpha T buf).ier = 0 ∧
     (p.dg_da nm s alpha T buf).calls =
       [(Call.hardening_q, (p.hardening_.q alpha T (zeros p.nhist)).1),
        (Call.hardening_dq_da, (p.hardening_.dq_da alpha T (zeros (p.nhist * p.nhist))).1),
        (Call.surface_df_dsdq,
          (p.surface_.df_dsdq s (p.hardening_.q alpha T (zeros p.nhist)).2 T (zeros (6 * p.nhist))).1)]) ∧
    ((p.dh_da nm s alpha T buf).ier = 0 ∧
     (p.dh_da nm s alpha T buf).calls =
       [(Call.hardening_q, (p.hardening_.q alpha T (zeros p.nhist)).1),
        (Call.hardening_dq_da, (p.hardening_.dq_da alpha T (zeros (p.nhist * p.nhist))).1),
        (Call.surface_df_dqdq,
          (p.surface_.df_dqdq s (p.hardening_.q alpha T (zeros p.nhist)).2 T (zeros (p.nhist * p.nhist))).1)]) ∧
    ((c.y pow s alpha T).ier = 0 ∧
     (c.y pow s alpha T).calls =
       [(Call.hardening_q, (c.hardening_.q alpha T (zeros c.hardening_.ninter)).1),
        (Call.surface_f,
          (c.surface_.f s (c.hardening_.q alpha T (zeros c.hardening_.ninter)).2 T).1)]) ∧
    ((c.dy_ds pow s alpha T buf).ier = 0 ∧
     (c.dy_ds pow s alpha T buf).calls =
       if (c.surface_.f s (c.hardening_.q alpha T (zeros c.hardening_.ninter)).2 T).2 > 0 then
         [(Call.hardening_q, (c.hardening_.q alpha T (zeros c.hardening_.ninter)).1),
          (Call.surface_f,
            (c.surface_.f s (c.hardening_.q alpha T (zeros c.hardening_.ninter)).2 T).1),
          (Call.surface_df_ds,
            (c.surface_.df_ds s (c.hardening_.q alpha T (zeros c.hardening_.ninter)).2 T (fill 6 0 buf)).1)]
       else
         [(Call.hardening_q, (c.hardening_.q alpha T (zeros c.hardening_.ninter)).1),
          (Call.surface_f,
            (c.surface_.f s (c.hardening_.q alpha T (zeros c.hardening_.ninter)).2 T).1)]) ∧
    ((c.dy_da pow nm s alpha T buf).ier = 0 ∧
     (c.dy_da pow nm s alpha T buf).calls =
       if (c.surface_.f s (c.hardening_.q alpha T (zeros c.hardening_.ninter)).2 T).2 > 0 then
         [(Call.hardening_q, (c.hardening_.q alpha T (zeros c.hardening_.ninter)).1),
          (Call.surface_f,
            (c.surface_.f s (c.hardening_.q alpha T (zeros c.hardening_.ninter)).2 T).1),
          (Call.hardening_dq_da,
            (c.hardening_.dq_da alpha T (zeros (c.hardening_.ninter * c.nhist))).1),
          (Call.surface_df_dq,
            (c.surface_.df_dq s (c.hardening_.q alpha T (zeros c.hardening_.ninter)).2 T (zeros c.hardening_.ninter)).1)]
       else
         [(Call.hardening_q, (c.hardening_.q alpha T (zeros c.hardening_.ninter)).1),
          (Call.surface_f,
            (c.surface_.f s (c.hardening_.q alpha T (zeros c.hardening_.ninter)).2 T).1)]) ∧
    ((c.dg_da nm s alpha T buf).ier = 0 ∧
     (c.dg_da nm s alpha T buf).calls =
       [(Call.hardening_q, (c.hardening_.q alpha T (zeros c.hardening_.ninter)).1),
        (Call.hardening_dq_da,
          (c.hardening_.dq_da alpha T (zeros (c.hardening_.ninter * c.nhist))).1),
        (Call.surface_df_dsdq,
          (c.surface_.df_dsdq s (c.hardening_.q alpha T (zeros c.hardening_.ninter)).2 T (zeros (6 * c.hardening_.ninter))).1)]) := by
  refine ⟨⟨rfl, rfl⟩, ⟨rfl, rfl⟩, ⟨rfl, rfl⟩, ⟨rfl, rfl⟩, ⟨rfl, rfl⟩, ⟨rfl, rfl⟩,
    ⟨rfl, rfl⟩, ⟨rfl, rfl⟩, ⟨rfl, rfl⟩, ⟨rfl, rfl⟩, ?_, ?_,
    ⟨rfl, rfl⟩, ⟨rfl, rfl⟩, ⟨rfl, rfl⟩, ?_, ?_, ⟨rfl, rfl⟩⟩
  · dsimp only [PerzynaFlowRule.dy_ds]
    split_ifs <;> exact ⟨rfl, rfl⟩
  · dsimp only [PerzynaFlowRule.dy_da]
    split_ifs <;> exact ⟨rfl, rfl⟩
  · dsimp only [ChabocheFlowRule.dy_ds]
    split_ifs <;> exact ⟨rfl, rfl⟩
  · dsimp only [ChabocheFlowRule.dy_da]
    split_ifs <;> exact ⟨rfl, rfl⟩

/-! ## The substep driver -/

/-- C5: when `elastic_step` reports true for the trial state built by `setup`,
`update_step` succeeds, the stress (and history) it returns are the elastic
trial values, the tangent is the elastic stiffness at `T_np1`, and the
nonlinear solver is not run. -/
theorem C5_elastic_step_shortcut {R TS : Type} [LinearOrderedField R]
    (m : SubstepModel_sd R TS) (inp : StepIn R)
    (hel : m.elastic_step (m.setup inp) inp = true) :
    ∃ out, m.update_step inp = Except.ok out ∧
      out.s_np1 = m.trial_stress (m.setup inp) ∧
      out.h_np1 = m.trial_history (m.setup inp) ∧
      out.A_np1 = m.C inp.T_np1 ∧ out.nsolve = 0 := by
  simp [SubstepModel_sd.update_step, hel]

/-- C5 at the sample model: an increment of zero duration is an elastic step. -/
theorem C5_elastic_step_shortcut_witness :
    (sampleSubstep 0).elastic_step ((sampleSubstep 0).setup (sampleStep 0 0)) (sampleStep 0 0)
        = true ∧
    ∃ out, (sampleSubstep 0).update_step (sampleStep 0 0) = Except.ok out ∧
      out.s_np1 = (sampleSubstep 0).trial_stress ((sampleSubstep 0).setup (sampleStep 0 0)) ∧
      out.h_np1 = (sampleSubstep 0).trial_history ((sampleSubstep 0).setup (sampleStep 0 0)) ∧
      out.A_np1 = (sampleSubstep 0).C (sampleStep 0 0).T_np1 ∧ out.nsolve = 0 :=
  ⟨by simp [sampleSubstep, sampleStep],
   C5_elastic_step_shortcut (sampleSubstep 0) (sampleStep 0 0)
     (by simp [sampleSubstep, sampleStep])⟩

/-- C6: `trapezoid_energy` returns `ΔW = ½(s_np1+s_n):(e_np1−e_n)` and
`ΔP = ½(s_np1+s_n):(ep_np1−ep_n)`, and on a constant stress path
(`s_np1 = s_n`) the work increment is `s_n:(e_np1−e_n)`. -/
theorem C6_trapezoid_energy {R : Type} [LinearOrderedField R]
    (e_np1 e_n ep_np1 ep_n s_np1 s_n : Symmetric R) :
    (trapezoid_energy e_np1 e_n ep_np1 ep_n s_np1 s_n).1 =
      1 / 2 * ∑ i, (s_np1 i + s_n i) * (e_np1 i - e_n i) ∧
    (trapezoid_energy e_np1 e_n ep_np1 ep_n s_np1 s_n).2 =
      1 / 2 * ∑ i, (s_np1 i + s_n i) * (ep_np1 i - ep_n i) ∧
    (trapezoid_energy e_np1 e_n ep_np1 ep_n s_n s_n).1 =
      ∑ i, s_n i * (e_np1 i - e_n i) := by
  refine ⟨rfl, rfl, ?_⟩
  simp only [trapezoid_energy, Symmetric.contract, Pi.add_apply, Pi.sub_apply, Finset.mul_sum]
  refine Finset.sum_congr rfl (fun i _ => ?_)
  ring

/-- A step that `update_step` resolves is the driver's result at every depth. -/
theorem integrate_of_step_ok {R TS : Type} [LinearOrderedField R]
    (m : SubstepModel_sd R TS) (depth : Nat) (inp : StepIn R) (out : StepOut R)
    (h : m.update_step inp = Except.ok out) : m.integrate depth inp = Except.ok out := by
  cases depth <;> simp [SubstepModel_sd.integrate, h]

/-- Whatever the driver returns as a success is resolved. -/
theorem resolved_of_integrate {R TS : Type} [LinearOrderedField R]
    (m : SubstepModel_sd R TS) (depth : Nat) :
    ∀ (inp : StepIn R) (out : StepOut R),
      m.integrate depth inp = Except.ok out → SubstepModel_sd.Resolved m inp out := by
  induction depth with
  | zero =>
    intro inp out h
    rw [SubstepModel_sd.integrate] at h
    cases hs : m.update_step inp with
    | ok o =>
      rw [hs] at h
      simp only [Except.ok.injEq] at h
      exact h ▸ SubstepModel_sd.Resolved.step inp o hs
    | error e =>
      rw [hs] at h
      cases e <;> simp at h
  | succ k ih =>
    intro inp out h
    rw [SubstepModel_sd.integrate] at h
    cases hs : m.update_step inp with
    | ok o =>
      rw [hs] at h
      simp only [Except.ok.injEq] at h
      exact h ▸ SubstepModel_sd.Resolved.step inp o hs
    | error e =>
      rw [hs] at h
      cases e with
      | SolverNoConverge =>
        simp only at h
        cases h1 : m.integrate k inp.firstHalf with
        | error e1 => rw [h1] at h; simp at h
        | ok o1 =>
          rw [h1] at h
          simp only at h
          cases h2 : m.integrate k (inp.secondHalf o1) with
          | error e2 => rw [h2] at h; simp at h
          | ok o2 =>
            rw [h2] at h
            simp only [Except.ok.injEq] at h
            exact h ▸ SubstepModel_sd.Resolved.bisect inp o1 o2 hs (ih _ _ h1) (ih _ _ h2)
      | IncompatibleModels => simp at h
      | SingularJacobian => simp at h
      | SubstepExhausted => simp at h

/-- C7: if the solve of an increment fails to converge at full size, the first
half (from the state at `n` to the midpoint of strain, temperature and time) is
resolved by `update_step` with result `o1`, and the second half (from the
midpoint to `n+1`, starting from the stress, history, work and dissipation of
`o1`) is resolved with result `o2`, then `update_sd_state` succeeds when
`max_divide_ ≥ 1`, with the stress, history, work and dissipation of `o2`, and
reports `SubstepExhausted` when `max_divide_ = 0`; and whatever
`update_sd_state` returns as a success is built from converged steps only. -/
theorem C7_adaptive_subdivision {R TS : Type} [LinearOrderedField R]
    (m : SubstepModel_sd R TS) (inp : StepIn R) :
    (∀ o1 o2 : StepOut R,
      m.update_step inp = Except.error NEMLError.SolverNoConverge →
      m.update_step
        ({ e_np1 := fun i => (inp.e_n i + inp.e_np1 i) / 2, e_n := inp.e_n,
                T_np1 := (inp.T_n + inp.T_np1) / 2, T_n := inp.T_n,
                t_np1 := (inp.t_n + inp.t_np1) / 2, t_n := inp.t_n,
                s_n := inp.s_n, h_n := inp.h_n, u_n := inp.u_n, p_n := inp.p_n } : StepIn R) = Except.ok o1 →
      m.update_step
        ({ e_np1 := inp.e_np1, e_n := fun i => (inp.e_n i + inp.e_np1 i) / 2,
                T_np1 := inp.T_np1, T_n := (inp.T_n + inp.T_np1) / 2,
                t_np1 := inp.t_np1, t_n := (inp.t_n + inp.t_np1) / 2,
                s_n := o1.s_np1, h_n := o1.h_np1, u_n := o1.u_np1, p_n := o1.p_np1 } : StepIn R) = Except.ok o2 →
      (1 ≤ m.max_divide_ →
        m.update_sd_state inp = Except.ok
          ({ s_np1 := o2.s_np1, h_np1 := o2.h_np1, A_np1 := m.recombine o1.A_np1 o2.A_np1,
                u_np1 := o2.u_np1, p_np1 := o2.p_np1, nsolve := o1.nsolve + o2.nsolve } : StepOut R)) ∧
      (m.max_divide_ = 0 → m.update_sd_state inp = Except.error NEMLError.SubstepExhausted)) ∧
    (∀ out : StepOut R, m.update_sd_state inp = Except.ok out →
      SubstepModel_sd.Resolved m inp out) := by
  refine ⟨fun o1 o2 hfull h1 h2 => ⟨fun hd => ?_, fun hd => ?_⟩, fun out h => ?_⟩
  · obtain ⟨k, hk⟩ : ∃ k, m.max_divide_ = k + 1 := ⟨m.max_divide_ - 1, by omega⟩
    have h1' : m.update_step inp.firstHalf = Except.ok o1 := h1
    have h2' : m.update_step (inp.secondHalf o1) = Except.ok o2 := h2
    rw [SubstepModel_sd.update_sd_state, hk, SubstepModel_sd.integrate, hfull]
    simp only
    rw [integrate_of_step_ok m k _ o1 h1']
    simp only
    rw [integrate_of_step_ok m k _ o2 h2']
    rfl
  · rw [SubstepModel_sd.update_sd_state, hd, SubstepModel_sd.integrate, hfull]
  · exact resolved_of_integrate m m.max_divide_ inp out h

/-- C7 at a model whose stress grows by 1 with every converged solve and whose
solver converges only on increments of duration at most `1/2`: the increment
from time 0 to time 1 at unit strain does not converge at full size; the first
half reaches stress 1 and work `3/2`, the second half starts from there and
reaches stress 2 and work 6, which is the result with one subdivision allowed;
with none the update reports `SubstepExhausted`. -/
theorem C7_adaptive_subdivision_witness :
    (sampleCarry 1).update_sd_state sampleLoad =
        Except.ok { sampleCarryOut 2 6 with nsolve := 2 } ∧
    (sampleCarry 0).update_sd_state sampleLoad =
        Except.error NEMLError.SubstepExhausted :=
  ⟨((C7_adaptive_subdivision (sampleCarry 1) sampleLoad).1
      (sampleCarryOut 1 (3 / 2)) (sampleCarryOut 2 6)
      (by norm_num [SubstepModel_sd.update_step, sampleCarry, sampleLoad])
      (by
        simp only [SubstepModel_sd.update_step, sampleCarry, sampleLoad,
          SubstepModel_sd.work_and_energy, trapezoid_energy, Symmetric.contract,
          sampleCarryOut]
        norm_num)
      (by
        simp only [SubstepModel_sd.update_step, sampleCarry, sampleLoad,
          SubstepModel_sd.work_and_energy, trapezoid_energy, Symmetric.contract,
          sampleCarryOut]
        norm_num)).1 (Nat.le_refl 1),
   ((C7_adaptive_subdivision (sampleCarry 0) sampleLoad).1
      (sampleCarryOut 1 (3 / 2)) (sampleCarryOut 2 6)
      (by norm_num [SubstepModel_sd.update_step, sampleCarry, sampleLoad])
      (by
        simp only [SubstepModel_sd.update_step, sampleCarry, sampleLoad,
          SubstepModel_sd.work_and_energy, trapezoid_energy, Symmetric.contract,
          sampleCarryOut]
        norm_num)
      (by
        simp only [SubstepModel_sd.update_step, sampleCarry, sampleLoad,
          SubstepModel_sd.work_and_energy, trapezoid_energy, Symmetric.contract,
          sampleCarryOut]
        norm_num)).2 rfl⟩

/-! ## Regime switching -/

/-- With ordered thresholds, an energy strictly inside interval `i` is in
regime `i`. -/
theorem regime_eq_of_inside {R : Type} [LinearOrderedField R] (g : R) :
    ∀ (gs : List R) (i : Nat), gs.Sorted (· ≤ ·) → i ≤ gs.length →
      (∀ x, 0 < i → gs[i - 1]? = some x → x < g) →
      (∀ x, gs[i]? = some x → g < x) → KMRegimeModel.regime gs g = i := by
  intro gs
  induction gs with
  | nil =>
    intro i _ hi _ _
    simp at hi
    simp [KMRegimeModel.regime, hi]
  | cons g0 rest ih =>
    intro i hs hi hlo hhi
    rw [List.sorted_cons] at hs
    cases i with
    | zero =>
      have hlt : g < g0 := hhi g0 (by simp)
      simp [KMRegimeModel.regime, hlt]
    | succ j =>
      have hj : j < (g0 :: rest).length := hi
      have hg0 : g0 < g := by
        cases j with
        | zero => exact hlo g0 (by omega) (by simp)
        | succ k =>
          have hk : k < rest.length := by simpa using hj
          have hx : (g0 :: rest)[k + 1 + 1 - 1]? = some rest[k] := by
            simp [List.getElem?_eq_getElem hk]
          have h1 := hlo _ (by omega) hx
          have h2 : g0 ≤ rest[k] := hs.1 _ (List.getElem_mem hk)
          exact lt_of_le_of_lt h2 h1
      have hnot : ¬ g < g0 := not_lt.mpr (le_of_lt hg0)
      have hrec := ih j hs.2 (by simpa using hi)
        (fun x hpos hx => hlo x (by omega) (by
          obtain ⟨k, rfl⟩ : ∃ k, j = k + 1 := ⟨j - 1, by omega⟩
          simpa using hx))
        (fun x hx => hhi x (by simpa using hx))
      simp [KMRegimeModel.regime, hnot, hrec]

/-- C8: for a `KMRegimeModel` with `n` sub-models and `n−1` ordered thresholds,
whenever the activation energy of the step is strictly above the threshold
below sub-model `i` (if any) and strictly below the threshold above it (if
any), `update_sd_state` returns exactly what sub-model `i`'s `update_sd_state`
returns on the same inputs, previous history included. -/
theorem C8_regime_dispatch {R : Type} [LinearOrderedField R] (km : KMRegimeModel R)
    (inp : StepIn R) (i : Nat) (sub : NEMLModel_sd R)
    (hsorted : km.gs_.Sorted (· ≤ ·))
    (hlen : km.models_.length = km.gs_.length + 1)
    (hsub : km.models_[i]? = some sub)
    (hlo : ∀ x, 0 < i → km.gs_[i - 1]? = some x →
      x < km.activation_energy_ inp.e_np1 inp.e_n inp.T_np1 inp.t_np1 inp.t_n)
    (hhi : ∀ x, km.gs_[i]? = some x →
      km.activation_energy_ inp.e_np1 inp.e_n inp.T_np1 inp.t_np1 inp.t_n < x) :
    km.update_sd_state inp = sub.update_sd_state inp := by
  have hi : i ≤ km.gs_.length := by
    have hlt : i < km.models_.length := by
      by_contra hge
      rw [List.getElem?_eq_none (not_lt.mp hge)] at hsub
      exact Option.noConfusion hsub
    omega
  have hreg := regime_eq_of_inside
    (km.activation_energy_ inp.e_np1 inp.e_n inp.T_np1 inp.t_np1 inp.t_n)
    km.gs_ i hsorted hi hlo hhi
  simp only [KMRegimeModel.update_sd_state, hreg, hsub]

/-- C8 at the sample regime model: the energy `3/2` lies strictly between the
thresholds 1 and 2, and the step is the one of sub-model 1. -/
theorem C8_regime_dispatch_witness :
    sampleKM.update_sd_state sampleRegimeStep = (sampleSub 1).update_sd_state sampleRegimeStep :=
  C8_regime_dispatch sampleKM sampleRegimeStep 1 (sampleSub 1)
    (by simp [sampleKM])
    rfl
    rfl
    (fun x _ hx => by
      have hx1 : (1 : ℚ) = x := by simpa [sampleKM] using hx
      subst hx1
      norm_num [sampleKM, sampleRegimeStep])
    (fun x hx => by
      have hx2 : (2 : ℚ) = x := by simpa [sampleKM] using hx
      subst hx2
      norm_num [sampleKM, sampleRegimeStep])

/-! ## History partition -/

/-- A zero-filled array of length `n` has `n` entries. -/
theorem length_zeros {R : Type} [Zero R] (n : Nat) : (zeros n : List R).length = n := by
  simp [zeros]

/-- Overwriting a block keeps its length. -/
theorem length_overwrite {R : Type} (old vals : List R) :
    (overwrite old vals).length = old.length := by
  simp only [overwrite, List.length_append, List.length_take, List.length_drop]
  omega

/-- A successful population appends the zero blocks of the variables in order;
their names are pairwise different and new to the history. -/
theorem addAll_some {R : Type} [Zero R] :
    ∀ (vs : List (String × Nat)) (h h1 : History R), h.addAll vs = some h1 →
      h1.entries = h.entries ++ vs.map (fun v => (v.1, zeros v.2)) ∧
      (vs.map Prod.fst).Nodup ∧ ∀ n ∈ vs.map Prod.fst, n ∉ h.names := by
  intro vs
  induction vs with
  | nil =>
    intro h h1 hadd
    simp only [History.addAll, Option.some.injEq] at hadd
    subst hadd
    simp
  | cons v rest ih =>
    intro h h1 hadd
    simp only [History.addAll, History.add] at hadd
    by_cases hin : v.1 ∈ h.names
    · simp [hin] at hadd
    · simp only [hin, if_false] at hadd
      obtain ⟨he, hnd, hnot⟩ := ih _ _ hadd
      have hnames : (History.mk (h.entries ++ [(v.1, (zeros v.2 : List R))])).names
          = h.names ++ [v.1] := by simp [History.names]
      rw [hnames] at hnot
      refine ⟨?_, ?_, ?_⟩
      · simpa using he
      · simp only [List.map_cons, List.nodup_cons]
        refine ⟨fun hmem => ?_, hnd⟩
        have := hnot _ hmem
        simp at this
      · intro n hn
        simp only [List.map_cons, List.mem_cons] at hn
        rcases hn with rfl | hn
        · exact hin
        · have := hnot n hn
          simp only [List.mem_append, not_or] at this
          exact this.1

/-- Populating new, pairwise different names succeeds and appends their zero
blocks in order. -/
theorem addAll_of_nodup {R : Type} [Zero R] :
    ∀ (vs : List (String × Nat)) (h : History R), (vs.map Prod.fst).Nodup →
      (∀ n ∈ vs.map Prod.fst, n ∉ h.names) →
      h.addAll vs = some { entries := h.entries ++ vs.map (fun v => (v.1, zeros v.2)) } := by
  intro vs
  induction vs with
  | nil =>
    intro h _ _
    simp [History.addAll]
  | cons v rest ih =>
    intro h hnd hnot
    simp only [List.map_cons, List.nodup_cons] at hnd
    have hin : v.1 ∉ h.names := hnot v.1 (by simp)
    simp only [History.addAll, History.add, hin, if_false]
    rw [ih _ hnd.2]
    · simp
    · intro n hn
      simp only [History.names, List.map_append, List.map_cons, List.map_nil, List.mem_append,
        List.mem_singleton, not_or]
      refine ⟨hnot n (by simp [hn]), ?_⟩
      rintro rfl
      exact hnd.1 hn

/-- Initialising a variable keeps the layout. -/
theorem layout_set {R : Type} (h : History R) (name : String) (vals : List R) :
    (h.set name vals).layout = h.layout := by
  simp only [History.set, History.layout, List.map_map]
  refine List.map_congr_left (fun e _ => ?_)
  simp only [Function.comp]
  split_ifs <;> simp [length_overwrite]

/-- Initialising a list of variables keeps the layout. -/
theorem layout_setAll {R : Type} (vars : List (String × List R)) :
    ∀ h : History R, (h.setAll vars).layout = h.layout := by
  induction vars with
  | nil => intro h; rfl
  | cons v rest ih =>
    intro h
    simp only [History.setAll, List.foldl_cons]
    exact (ih (h.set v.1 v.2)).trans (layout_set h v.1 v.2)

/-- The flat length of a history is the sum of the sizes in its layout. -/
theorem size_eq_layout_sum {R : Type} (h : History R) :
    h.size = (h.layout.map Prod.snd).sum := by
  simp [History.size, History.flat, History.layout, List.length_flatten, Function.comp_def]

/-- On a history laid out as `S` followed by `T`, with no name of `T` in `S`,
keeping the names of `S` takes the first `S.length` entries and dropping them
leaves the others. -/
theorem split_of_layout {R : Type} (E : List (String × List R)) (S T : List (String × Nat))
    (hlay : E.map (fun e => (e.1, e.2.length)) = S ++ T)
    (hdis : ∀ n ∈ T.map Prod.fst, n ∉ S.map Prod.fst) :
    E.filter (fun e => decide (e.1 ∈ S.map Prod.fst) == true) = E.take S.length ∧
    E.filter (fun e => decide (e.1 ∈ S.map Prod.fst) == false) = E.drop S.length := by
  have h1 : (E.take S.length).map (fun e => (e.1, e.2.length)) = S := by
    rw [List.map_take, hlay, List.take_left' rfl]
  have h2 : (E.drop S.length).map (fun e => (e.1, e.2.length)) = T := by
    rw [List.map_drop, hlay, List.drop_left' rfl]
  have hin : ∀ e ∈ E.take S.length, e.1 ∈ S.map Prod.fst := by
    intro e he
    have : (e.1, e.2.length) ∈ S := by
      rw [← h1]
      exact List.mem_map_of_mem _ he
    exact List.mem_map_of_mem Prod.fst this
  have hout : ∀ e ∈ E.drop S.length, e.1 ∉ S.map Prod.fst := by
    intro e he
    have : (e.1, e.2.length) ∈ T := by
      rw [← h2]
      exact List.mem_map_of_mem _ he
    exact hdis _ (List.mem_map_of_mem Prod.fst this)
  constructor
  · conv_lhs => rw [← List.take_append_drop S.length E]
    rw [List.filter_append, List.filter_eq_self.mpr, List.filter_eq_nil_iff.mpr, List.append_nil]
    · intro e he
      simp [hout e he]
    · intro e he
      simp [hin e he]
  · conv_lhs => rw [← List.take_append_drop S.length E]
    rw [List.filter_append, List.filter_eq_nil_iff.mpr, List.filter_eq_self.mpr, List.nil_append]
    · intro e he
      simp [hout e he]
    · intro e he
      simp [hin e he]

/-- What a successful `populate_hist` on the blank history says about a model:
the populated history, the two cached partitions and the variable names. -/
theorem populate_hist_blank {R : Type} [Zero R] (m : NEMLModel R) (h0 : History R)
    (hpop : m.populate_hist History.blank = some h0) :
    h0.layout = varSizes m.state_vars ++ varSizes m.static_vars ∧
    m.stored_state_.layout = varSizes m.state_vars ∧
    m.stored_static_.layout = varSizes m.static_vars ∧
    ∀ n ∈ (varSizes m.static_vars).map Prod.fst, n ∉ (varSizes m.state_vars).map Prod.fst := by
  have hlay : ∀ vs : List (String × Nat),
      (vs.map (fun v => (v.1, (zeros v.2 : List R)))).map (fun e => (e.1, e.2.length)) = vs := by
    intro vs
    rw [List.map_map]
    conv_rhs => rw [← List.map_id vs]
    refine List.map_congr_left (fun v _ => ?_)
    simp [length_zeros]
  simp only [NEMLModel.populate_hist, NEMLModel.populate_state, NEMLModel.populate_static]
    at hpop
  cases h1eq : (History.blank : History R).addAll (varSizes m.state_vars) with
  | none => rw [h1eq] at hpop; exact Option.noConfusion hpop
  | some h1 =>
    rw [h1eq] at hpop
    simp only at hpop
    obtain ⟨he1, _, _⟩ := addAll_some _ _ _ h1eq
    obtain ⟨he0, hnd0, hnot0⟩ := addAll_some _ _ _ hpop
    have he1' : h1.entries = (varSizes m.state_vars).map (fun v => (v.1, zeros v.2)) := by
      simpa [History.blank] using he1
    have hstatic : (History.blank : History R).addAll (varSizes m.static_vars) =
        some { entries := (History.blank : History R).entries ++
          (varSizes m.static_vars).map (fun v => (v.1, zeros v.2)) } :=
      addAll_of_nodup _ _ hnd0 (fun n _ => by simp [History.blank, History.names])
    refine ⟨?_, ?_, ?_, ?_⟩
    · simp only [History.layout, he0, he1', List.map_append, hlay]
    · simp only [NEMLModel.stored_state_, NEMLModel.populate_state, h1eq, Option.getD_some,
        History.layout, he1', hlay]
    · simp only [NEMLModel.stored_static_, NEMLModel.populate_static, hstatic,
        Option.getD_some, History.layout]
      simp only [History.blank, List.nil_append, hlay]
    · intro n hn
      have := hnot0 n hn
      simpa [History.names, he1'] using this

/-- C9: when a model's variables populate a blank history, the flat array of
the populated and initialised history has length `nstate() + nstatic()`, and
every history `h` with that layout is split by `split_state` into an evolving
and a static part whose concatenation is `h` again, entry for entry and as a
flat array, the parts having `nstate()` and `nstatic()` entries of the flat
array. -/
theorem C9_history_round_trip {R : Type} [Zero R] (m : NEMLModel R) (h0 : History R)
    (hpop : m.populate_hist History.blank = some h0) :
    (m.init_hist h0).flat.length = m.nstate + m.nstatic ∧
    ∀ h : History R, h.layout = h0.layout →
      (m.split_state h).1.concat (m.split_state h).2 = h ∧
      (m.split_state h).1.flat ++ (m.split_state h).2.flat = h.flat ∧
      (m.split_state h).1.size = m.nstate ∧ (m.split_state h).2.size = m.nstatic := by
  obtain ⟨hl0, hls, hlt, hdis⟩ := populate_hist_blank m h0 hpop
  have hnames : m.stored_state_.names = (varSizes m.state_vars).map Prod.fst := by
    rw [← hls]
    simp [History.names, History.layout]
  constructor
  · have hinit : (m.init_hist h0).layout = h0.layout := by
      simp only [NEMLModel.init_hist, NEMLModel.init_static, NEMLModel.init_state,
        layout_setAll]
    have hsz := size_eq_layout_sum (m.init_hist h0)
    rw [History.size] at hsz
    rw [hsz, hinit, hl0, NEMLModel.nstate, NEMLModel.nstatic, size_eq_layout_sum,
      size_eq_layout_sum, hls, hlt, List.map_append, List.sum_append]
  · intro h hlay
    rw [hl0] at hlay
    obtain ⟨hf1, hf2⟩ := split_of_layout h.entries _ _ hlay hdis
    have hs1 : (m.split_state h).1 = { entries := h.entries.take (varSizes m.state_vars).length } := by
      simp only [NEMLModel.split_state, History.split, hnames, hf1]
    have hs2 : (m.split_state h).2 = { entries := h.entries.drop (varSizes m.state_vars).length } := by
      simp only [NEMLModel.split_state, History.split, hnames, hf2]
    have htake : (h.entries.take (varSizes m.state_vars).length).map
        (fun e => (e.1, e.2.length)) = varSizes m.state_vars := by
      have := hlay
      simp only [History.layout] at this
      rw [List.map_take, this, List.take_left' rfl]
    have hdrop : (h.entries.drop (varSizes m.state_vars).length).map
        (fun e => (e.1, e.2.length)) = varSizes m.static_vars := by
      have := hlay
      simp only [History.layout] at this
      rw [List.map_drop, this, List.drop_left' rfl]
    rw [hs1, hs2]
    refine ⟨?_, ?_, ?_, ?_⟩
    · simp [History.concat]
    · simp only [History.flat, ← List.flatten_append, ← List.map_append,
        List.take_append_drop]
    · rw [size_eq_layout_sum, NEMLModel.nstate, size_eq_layout_sum, hls]
      simp only [History.layout, htake]
    · rw [size_eq_layout_sum, NEMLModel.nstatic, size_eq_layout_sum, hlt]
      simp only [History.layout, hdrop]

/-- C9 at the sample model: two evolving variables of sizes 1 and 2 and one
static variable of size 1 populate a history of layout
`alpha, backstress, rotation`. -/
theorem C9_history_round_trip_witness :
    sampleModel.populate_hist History.blank = some sampleHistory ∧
    ((sampleModel.init_hist sampleHistory).flat.length = sampleModel.nstate + sampleModel.nstatic ∧
      ∀ h : History Int, h.layout = sampleHistory.layout →
        (sampleModel.split_state h).1.concat (sampleModel.split_state h).2 = h ∧
        (sampleModel.split_state h).1.flat ++ (sampleModel.split_state h).2.flat = h.flat ∧
        (sampleModel.split_state h).1.size = sampleModel.nstate ∧
        (sampleModel.split_state h).2.size = sampleModel.nstatic) :=
  ⟨by decide, C9_history_round_trip sampleModel sampleHistory (by decide)⟩

/-! ## Parameter sets -/

/-- An assigned key is found with its value. -/
theorem find_assign_same {V : Type} (name : String) (value : V) :
    ∀ m : StdMap V, StdMap.find (StdMap.assign m name value) name = some value := by
  intro m
  induction m with
  | nil => simp [StdMap.assign, StdMap.find]
  | cons e rest ih =>
    obtain ⟨k, v⟩ := e
    by_cases hk : k = name
    · simp [StdMap.assign, StdMap.find, hk]
    · simp [StdMap.assign, StdMap.find, hk, ih]

/-- An assignment leaves every other key as it was. -/
theorem find_assign_other {V : Type} (name other : String) (value : V) (hne : other ≠ name) :
    ∀ m : StdMap V, StdMap.find (StdMap.assign m name value) other = StdMap.find m other := by
  intro m
  induction m with
  | nil => simp [StdMap.assign, StdMap.find, Ne.symm hne]
  | cons e rest ih =>
    obtain ⟨k, v⟩ := e
    by_cases hk : k = name
    · have hko : k ≠ other := fun h => hne (h ▸ hk)
      simp [StdMap.assign, StdMap.find, hk, hko, Ne.symm hne]
    · by_cases hko : k = other
      · subst hko
        simp [StdMap.assign, StdMap.find, hk]
      · simp [StdMap.assign, StdMap.find, hk, hko, ih]

/-- Resolving deferred parameters leaves a name without a deferred entry as it
was. -/
theorem find_resolve {R : Type} (create : ParameterSet R → Nat) (name : String) :
    ∀ (ds : List (String × ParameterSet R)) (m : StdMap (param_type R)),
      (∀ d ∈ ds, d.1 ≠ name) →
      StdMap.find (ds.foldl
        (fun acc d => StdMap.assign acc d.1 (param_type.object_ptr (create d.2))) m) name
        = StdMap.find m name := by
  intro ds
  induction ds with
  | nil => intro m _; rfl
  | cons d rest ih =>
    intro m hds
    rw [List.foldl_cons, ih _ (fun e he => hds e (List.mem_cons_of_mem _ he))]
    exact find_assign_other _ _ _ (Ne.symm (hds d (List.mem_cons_self _ _))) m

/-- Taking a `T` out of a variant that holds that `T` gives it back. -/
theorem boost_get_ofValue {R : Type} (T : CppType) (v : T.Carrier R) :
    boost_get T (param_type.ofValue T v) = some v := by
  cases T <;> first | rfl | exact nomatch v

/-- Reading a name that holds `value` and has no deferred entry. -/
theorem get_parameter_of_find {R : Type} [Zero R] (create : ParameterSet R → Nat)
    (T : CppType) (ps : ParameterSet R) (name : String) (value : param_type R)
    (hdef : ∀ d ∈ ps.defered_params_, d.1 ≠ name)
    (hfind : StdMap.find ps.params_ name = some value) :
    (ps.get_parameter create T name).1 = boost_get T value := by
  have h := find_resolve create name ps.defered_params_ ps.params_ hdef
  simp only [ParameterSet.get_parameter, ParameterSet.resolve_objects_, ParameterSet.params_,
    StdMap.index]
  simp only [ParameterSet.params_] at h hfind
  rw [h, hfind]

/-- C10: after `add_optional_parameter<T>(name, v)` with `v` holding a `T`, and
no deferred parameter pending for `name`, `get_parameter<T>(name)` returns `v`;
after a later `assign_parameter(name, w)` with `w` holding a `T` (made before
or after that read) it returns `w`; and `assign_parameter(name, ·)` leaves the
value stored under every other name as it was. -/
theorem C10_parameter_round_trip {R : Type} [Zero R] (create : ParameterSet R → Nat)
    (T : CppType) (ps : ParameterSet R) (name : String) (v w : T.Carrier R)
    (hdef : ∀ d ∈ ps.defered_params_, d.1 ≠ name) :
    ((ps.add_optional_parameter T name (param_type.ofValue T v)).get_parameter
        create T name).1 = some v ∧
    (((ps.add_optional_parameter T name (param_type.ofValue T v)).assign_parameter name
        (param_type.ofValue T w)).get_parameter create T name).1 = some w ∧
    (((((ps.add_optional_parameter T name (param_type.ofValue T v)).get_parameter
        create T name).2).assign_parameter name
        (param_type.ofValue T w)).get_parameter create T name).1 = some w ∧
    ∀ (q : ParameterSet R) (value : param_type R) (other : String), other ≠ name →
      StdMap.find (q.assign_parameter name value).params_ other =
        StdMap.find q.params_ other := by
  refine ⟨?_, ?_, ?_, ?_⟩
  · have hf : StdMap.find (ps.add_optional_parameter T name (param_type.ofValue T v)).params_
        name = some (param_type.ofValue T v) := find_assign_same name _ _
    have hd : ∀ d ∈ (ps.add_optional_parameter T name
        (param_type.ofValue T v)).defered_params_, d.1 ≠ name := hdef
    rw [get_parameter_of_find create T
      (ps.add_optional_parameter T name (param_type.ofValue T v)) name _ hd hf,
      boost_get_ofValue]
  · have hf : StdMap.find ((ps.add_optional_parameter T name
        (param_type.ofValue T v)).assign_parameter name (param_type.ofValue T w)).params_
        name = some (param_type.ofValue T w) := find_assign_same name _ _
    have hd : ∀ d ∈ ((ps.add_optional_parameter T name
        (param_type.ofValue T v)).assign_parameter name
        (param_type.ofValue T w)).defered_params_, d.1 ≠ name := hdef
    rw [get_parameter_of_find create T
      ((ps.add_optional_parameter T name (param_type.ofValue T v)).assign_parameter name
        (param_type.ofValue T w)) name _ hd hf, boost_get_ofValue]
  · have hf : StdMap.find ((((ps.add_optional_parameter T name
        (param_type.ofValue T v)).get_parameter create T name).2).assign_parameter name
        (param_type.ofValue T w)).params_ name = some (param_type.ofValue T w) :=
      find_assign_same name _ _
    have hd : ∀ d ∈ ((((ps.add_optional_parameter T name
        (param_type.ofValue T v)).get_parameter create T name).2).assign_parameter name
        (param_type.ofValue T w)).defered_params_, d.1 ≠ name :=
      fun d hmem => absurd hmem (List.not_mem_nil d)
    rw [get_parameter_of_find create T
      ((((ps.add_optional_parameter T name (param_type.ofValue T v)).get_parameter
        create T name).2).assign_parameter name (param_type.ofValue T w)) name _ hd hf,
      boost_get_ofValue]
  · intro q value other hne
    exact find_assign_other name other value hne q.params_

/-- C10 at a concrete parameter set with a deferred parameter under another
name: the default 5 of `n` is read back, and 7 after it is assigned. -/
theorem C10_parameter_round_trip_witness :
    (∀ d ∈ samplePS.defered_params_, d.1 ≠ "n") ∧
    ((samplePS.add_optional_parameter CppType.double "n"
        (param_type.double 5)).get_parameter (fun _ => 42) CppType.double "n").1
      = some (5 : Int) ∧
    (((samplePS.add_optional_parameter CppType.double "n"
        (param_type.double 5)).assign_parameter "n"
        (param_type.double 7)).get_parameter (fun _ => 42) CppType.double "n").1
      = some (7 : Int) :=
  ⟨by decide,
   (C10_parameter_round_trip (fun _ => 42) CppType.double samplePS "n" (5 : Int) (7 : Int)
      (by decide)).1,
   (C10_parameter_round_trip (fun _ => 42) CppType.double samplePS "n" (5 : Int) (7 : Int)
      (by decide)).2.1⟩

/-! ## The type invariant of parameter sets -/

/-- C11 as stated fails: declaring `n` as a `double` and then assigning it the
`bool` value `true` leaves a name with a declared type and an assigned value of
another type, and `get_parameter<double>` on it fails with the type
mismatch. -/
theorem C11_type_invariant_counterexample :
    ¬ ((ParameterSet.empty "model" : ParameterSet Int).calls
        [ParamCall.add_parameter CppType.double "n",
         ParamCall.assign_parameter "n" (param_type.bool true)]).TypeInvariant ∧
    (((ParameterSet.empty "model" : ParameterSet Int).calls
        [ParamCall.add_parameter CppType.double "n",
         ParamCall.assign_parameter "n" (param_type.bool true)]).get_parameter
          (fun _ => 0) CppType.double "n").1 = none := by
  constructor
  · intro hinv
    have hk := hinv "n" ParamType.TYPE_DOUBLE (param_type.bool true) (by decide) (by decide)
    exact absurd hk (by decide)
  · rfl

/-- A well-typed call keeps the type invariant. -/
theorem typeInvariant_call {R : Type} (ps : ParameterSet R) (c : ParamCall R)
    (hinv : ps.TypeInvariant) (hwt : c.WellTyped ps) : (ps.call c).TypeInvariant := by
  intro name t v ht hv
  cases c with
  | add_parameter T n =>
    have ht' : StdMap.find (StdMap.assign ps.param_types_ n (GetParamType T)) name = some t := ht
    have hv' : StdMap.find ps.params_ name = some v := hv
    by_cases hn : name = n
    · subst hn
      rw [find_assign_same] at ht'
      exact (hwt v hv').trans (Option.some.inj ht')
    · rw [find_assign_other _ _ _ hn] at ht'
      exact hinv name t v ht' hv'
  | add_optional_parameter T n value =>
    have ht' : StdMap.find (StdMap.assign ps.param_types_ n (GetParamType T)) name = some t := ht
    have hv' : StdMap.find (StdMap.assign ps.params_ n value) name = some v := hv
    by_cases hn : name = n
    · subst hn
      rw [find_assign_same] at ht' hv'
      have h1 : value.kind = GetParamType T := hwt
      rw [← Option.some.inj hv', ← Option.some.inj ht']
      exact h1
    · rw [find_assign_other _ _ _ hn] at ht' hv'
      exact hinv name t v ht' hv'
  | assign_parameter n value =>
    have ht' : StdMap.find ps.param_types_ name = some t := ht
    have hv' : StdMap.find (StdMap.assign ps.params_ n value) name = some v := hv
    by_cases hn : name = n
    · subst hn
      rw [find_assign_same] at hv'
      rw [← Option.some.inj hv']
      exact hwt t ht'
    · rw [find_assign_other _ _ _ hn] at hv'
      exact hinv name t v ht' hv'

/-- A value of the kind of `T` can be taken out as a `T`, for every `T` that is
an alternative of the variant. -/
theorem boost_get_of_kind {R : Type} (T : CppType) (v : param_type R)
    (hT : T ≠ CppType.NEMLObject) (hk : v.kind = GetParamType T) :
    ∃ x, boost_get T v = some x := by
  cases T <;> cases v <;> simp_all [param_type.kind, GetParamType, boost_get]

/-- C11, amended: the type invariant holds for the empty parameter set and is
kept by every sequence of `add_parameter`, `add_optional_parameter` and
`assign_parameter` calls that are each well typed when made (the calls
themselves check nothing); and on a parameter set with the invariant,
`get_parameter<T>` of a name declared with `T`'s type, holding a value and with
no deferred parameter pending, does not fail, for every `T` that is an
alternative of the variant. -/
theorem C11_type_invariant {R : Type} [Zero R] (create : ParameterSet R → Nat)
    (ps : ParameterSet R) (cs : List (ParamCall R))
    (hinv : ps.TypeInvariant) (hwt : ps.WellTypedCalls cs) :
    (ParameterSet.empty ps.type_ : ParameterSet R).TypeInvariant ∧
    (ps.calls cs).TypeInvariant ∧
    ∀ (T : CppType) (name : String) (v : param_type R), T ≠ CppType.NEMLObject →
      StdMap.find (ps.calls cs).param_types_ name = some (GetParamType T) →
      StdMap.find (ps.calls cs).params_ name = some v →
      (∀ d ∈ (ps.calls cs).defered_params_, d.1 ≠ name) →
      ∃ x, ((ps.calls cs).get_parameter create T name).1 = some x := by
  have hcalls : (ps.calls cs).TypeInvariant := by
    induction cs generalizing ps with
    | nil => exact hinv
    | cons c rest ih =>
      exact ih (ps.call c) (typeInvariant_call ps c hinv hwt.1) hwt.2
  refine ⟨?_, hcalls, ?_⟩
  · intro name t v ht _
    exact Option.noConfusion ht
  · intro T name v hT ht hv hdef
    rw [get_parameter_of_find create T _ name v hdef hv]
    exact boost_get_of_kind T v hT (hcalls name _ v ht hv)

/-- C11 amended, at a concrete sequence: `n` declared as a `double` with the
default 5, then assigned 7, on the empty parameter set. -/
theorem C11_type_invariant_witness :
    ((ParameterSet.empty "model" : ParameterSet Int).calls
        [ParamCall.add_optional_parameter CppType.double "n" (param_type.double 5),
         ParamCall.assign_parameter "n" (param_type.double 7)]).TypeInvariant :=
  (C11_type_invariant (fun _ => 0) (ParameterSet.empty "model")
    [ParamCall.add_optional_parameter CppType.double "n" (param_type.double 5),
     ParamCall.assign_parameter "n" (param_type.double 7)]
    (fun _ _ _ ht _ => Option.noConfusion ht)
    ⟨rfl, fun t ht => by
      have h1 : some ParamType.TYPE_DOUBLE = some t := ht
      exact Option.some.inj h1, trivial⟩).2.1

/-! ## The structured entry points of the base class -/

/-- C16: `NEMLModel::update_sd_interface` and
`NEMLModel::update_ld_inc_interface` return without failure and leave every
argument passed by reference (`s_np1`, `h_np1`, `A_np1`, `B_np1`, `u_np1`,
`p_np1`) as it was passed in, whatever the inputs. -/
theorem C16_interface_no_ops {R : Type} (m : NEMLModel R)
    (e_np1 e_n s_n : Symmetric R) (w_np1 w_n : Skew R) (T_np1 T_n t_np1 t_n u_n p_n : R)
    (h_n : History R) (sd : SdInterfaceRefs R) (ld : LdInterfaceRefs R) :
    m.update_sd_interface e_np1 e_n T_np1 T_n t_np1 t_n h_n u_n p_n sd = Except.ok sd ∧
    m.update_ld_inc_interface e_np1 e_n w_np1 w_n T_np1 T_n t_np1 t_n s_n h_n u_n p_n ld
      = Except.ok ld :=
  ⟨rfl, rfl⟩

/-! ## Associativity of the Perzyna rule -/

/-- C18: with `q` the vector the hardening rule writes for `(alpha, T)`,
`PerzynaFlowRule::g` writes what the yield surface's `df_ds(s, q, T)` writes
and `PerzynaFlowRule::h` what its `df_dq(s, q, T)` writes, `y` evaluates the
same surface's `f` at the same `q`, and `g`, `dg_ds`, `h`, `dh_ds` each make
exactly one yield-surface call and return its status code. -/
theorem C18_perzyna_associative {R : Type} [LinearOrderedField R] (m : PerzynaFlowRule R)
    (s alpha : List R) (T : R) (buf : List R) :
    ((m.g s alpha T buf).out =
        (m.surface_.df_ds s (m.hardening_.q alpha T (zeros m.nhist)).2 T buf).2 ∧
     (m.h s alpha T buf).out =
        (m.surface_.df_dq s (m.hardening_.q alpha T (zeros m.nhist)).2 T buf).2 ∧
     (m.y s alpha T).out =
        (if m.g_.g (m.surface_.f s (m.hardening_.q alpha T (zeros m.nhist)).2 T).2 > 0 then
          m.g_.g (m.surface_.f s (m.hardening_.q alpha T (zeros m.nhist)).2 T).2 / m.eta_
         else 0)) ∧
    ((m.g s alpha T buf).ier =
        (m.surface_.df_ds s (m.hardening_.q alpha T (zeros m.nhist)).2 T buf).1 ∧
     (m.dg_ds s alpha T buf).ier =
        (m.surface_.df_dsds s (m.hardening_.q alpha T (zeros m.nhist)).2 T buf).1 ∧
     (m.h s alpha T buf).ier =
        (m.surface_.df_dq s (m.hardening_.q alpha T (zeros m.nhist)).2 T buf).1 ∧
     (m.dh_ds s alpha T buf).ier =
        (m.surface_.df_dqds s (m.hardening_.q alpha T (zeros m.nhist)).2 T buf).1) ∧
    ((m.g s alpha T buf).calls.tail = [(Call.surface_df_ds, (m.g s alpha T buf).ier)] ∧
     (m.dg_ds s alpha T buf).calls.tail =
        [(Call.surface_df_dsds, (m.dg_ds s alpha T buf).ier)] ∧
     (m.h s alpha T buf).calls.tail = [(Call.surface_df_dq, (m.h s alpha T buf).ier)] ∧
     (m.dh_ds s alpha T buf).calls.tail =
        [(Call.surface_df_dqds, (m.dh_ds s alpha T buf).ier)]) ∧
    ((m.g s alpha T buf).calls.head? = some (Call.hardening_q, (m.hardening_.q alpha T
        (zeros m.nhist)).1) ∧
     (m.h s alpha T buf).calls.head? = some (Call.hardening_q, (m.hardening_.q alpha T
        (zeros m.nhist)).1)) :=
  ⟨⟨rfl, rfl, rfl⟩, ⟨rfl, rfl, rfl, rfl⟩, ⟨rfl, rfl, rfl, rfl⟩, ⟨rfl, rfl⟩⟩

/-! ## Components of the rate derivatives -/

/-- Entry `i` of a buffer whose first `n` entries went through `f`. -/
theorem getElem?_mapFirst {R : Type} (n : Nat) (f : R → R) (buf : List R) (i : Nat) :
    (mapFirst n f buf)[i]? = if i < n then buf[i]?.map f else buf[i]? := by
  unfold mapFirst
  by_cases hin : i < n
  · rw [if_pos hin]
    by_cases hil : i < buf.length
    · rw [List.getElem?_append_left (by simp; omega), List.getElem?_map, List.getElem?_take,
        if_pos hin]
    · rw [List.getElem?_append_right (by simp; omega), List.getElem?_drop,
        List.getElem?_eq_none (by simp; omega), List.getElem?_eq_none (by omega)]
      rfl
  · rw [if_neg hin]
    by_cases hnl : n ≤ buf.length
    · rw [List.getElem?_append_right (by simp; omega), List.getElem?_drop]
      congr 1
      simp
      omega
    · rw [List.getElem?_append_right (by simp; omega), List.getElem?_drop,
        List.getElem?_eq_none (by simp; omega), List.getElem?_eq_none (by omega)]

/-- The first `n` entries of a buffer after `std::fill(buf, buf + n, v)`. -/
theorem getElem?_fill {R : Type} (n : Nat) (v : R) (buf : List R) (i : Nat)
    (hin : i < n) (hil : i < buf.length) : (fill n v buf)[i]? = some v := by
  rw [fill, getElem?_mapFirst, if_pos hin, List.getElem?_eq_getElem hil]
  rfl

/-- C13: with `q` the hardening rule's vector and `f` the yield-function value
at `(s, q, T)`: when `g(f) > 0`, `PerzynaFlowRule::y` writes `g(f)/eta` and
each of the 6 components of `dy_ds` is the component of `df_ds(s, q, T)` times
`dg(f)/eta`; otherwise `y` writes 0 and `dy_ds` writes six zeros.  Both branch
on the same condition `g(f) > 0`. -/
theorem C13_perzyna_dy_ds {R : Type} [LinearOrderedField R] (m : PerzynaFlowRule R)
    (s alpha : List R) (T : R) (dyv : List R) :
    (m.g_.g (m.surface_.f s (m.hardening_.q alpha T (zeros m.nhist)).2 T).2 > 0 →
      (m.y s alpha T).out =
        m.g_.g (m.surface_.f s (m.hardening_.q alpha T (zeros m.nhist)).2 T).2 / m.eta_ ∧
      ∀ i, i < 6 → (m.dy_ds s alpha T dyv).out[i]? =
        ((m.surface_.df_ds s (m.hardening_.q alpha T (zeros m.nhist)).2 T
            (fill 6 0 dyv)).2[i]?).map
          (fun x => x * (m.g_.dg (m.surface_.f s
            (m.hardening_.q alpha T (zeros m.nhist)).2 T).2 / m.eta_))) ∧
    (¬ m.g_.g (m.surface_.f s (m.hardening_.q alpha T (zeros m.nhist)).2 T).2 > 0 →
      (m.y s alpha T).out = 0 ∧
      (m.dy_ds s alpha T dyv).out = fill 6 0 dyv ∧
      ∀ i, i < 6 → i < dyv.length → (m.dy_ds s alpha T dyv).out[i]? = some 0) := by
  constructor
  · intro hg
    refine ⟨by simp only [PerzynaFlowRule.y, if_pos hg], fun i hi => ?_⟩
    simp only [PerzynaFlowRule.dy_ds, if_pos hg, getElem?_mapFirst, if_pos hi]
  · intro hg
    refine ⟨by simp only [PerzynaFlowRule.y, if_neg hg], ?_, fun i hi hil => ?_⟩
    · simp only [PerzynaFlowRule.dy_ds, if_neg hg]
    · simp only [PerzynaFlowRule.dy_ds, if_neg hg]
      exact getElem?_fill 6 0 dyv i hi hil

/-- C13 at the sample rule (`f = 1`, `g(f) = 1 > 0`, `dg = 1`, `eta = 1`): the
rate is 1 and the derivative leaves the zero-filled array the surface returned. -/
theorem C13_perzyna_dy_ds_witness :
    ((samplePerzyna 1 1 0).y [] [] 0).out = 1 ∧
    ((samplePerzyna 1 1 0).dy_ds [] [] 0 [9, 9, 9, 9, 9, 9]).out[0]? = some 0 := by
  have h := (C13_perzyna_dy_ds (samplePerzyna 1 1 0) [] [] 0 [9, 9, 9, 9, 9, 9]).1
    (by norm_num [samplePerzyna, constSurface])
  refine ⟨h.1.trans (by norm_num [samplePerzyna, constSurface]), (h.2 0 (by omega)).trans ?_⟩
  norm_num [samplePerzyna, constSurface, fill, mapFirst]

/-- C12: over the reals, with `pow` the real power: for `f > 0`,
`GPowerLaw::g` is `f^n`, `GPowerLaw::dg` is `n·f^(n−1)` and is the derivative
of `g` at `f`; for `f < 0` both are 0 and `dg` is again the derivative of `g`
at `f`. -/
theorem C12_gpowerlaw_derivative (n f : ℝ) :
    (0 < f →
      GPowerLaw.g Real.rpow n f = f ^ n ∧
      GPowerLaw.dg Real.rpow n f = n * f ^ (n - 1) ∧
      HasDerivAt (GPowerLaw.g Real.rpow n) (GPowerLaw.dg Real.rpow n f) f) ∧
    (f < 0 →
      GPowerLaw.g Real.rpow n f = 0 ∧
      GPowerLaw.dg Real.rpow n f = 0 ∧
      HasDerivAt (GPowerLaw.g Real.rpow n) (GPowerLaw.dg Real.rpow n f) f) := by
  constructor
  · intro hf
    have hg : GPowerLaw.g Real.rpow n f = f ^ n := by
      simp only [GPowerLaw.g, if_pos (show f > 0 from hf), Real.rpow_eq_pow]
    have hdg : GPowerLaw.dg Real.rpow n f = n * f ^ (n - 1) := by
      simp only [GPowerLaw.dg, if_pos (show f > 0 from hf), Real.rpow_eq_pow]
    refine ⟨hg, hdg, ?_⟩
    rw [hdg]
    refine (Real.hasDerivAt_rpow_const (Or.inl (ne_of_gt hf))).congr_of_eventuallyEq ?_
    filter_upwards [lt_mem_nhds hf] with x hx
    simp only [GPowerLaw.g, if_pos (show x > 0 from hx), Real.rpow_eq_pow]
  · intro hf
    have hnot : ¬ f > 0 := not_lt.mpr (le_of_lt hf)
    have hg : GPowerLaw.g Real.rpow n f = 0 := by
      simp only [GPowerLaw.g, if_neg hnot]
    have hdg : GPowerLaw.dg Real.rpow n f = 0 := by
      simp only [GPowerLaw.dg, if_neg hnot]
    refine ⟨hg, hdg, ?_⟩
    rw [hdg]
    refine (hasDerivAt_const f (0 : ℝ)).congr_of_eventuallyEq ?_
    filter_upwards [gt_mem_nhds hf] with x hx
    simp only [GPowerLaw.g, if_neg (show ¬ x > 0 from not_lt.mpr (le_of_lt hx))]

/-- C12 at the exponent 2: at `f = 1` the derivative of `g` is `2·1^(2−1)`, at
`f = -1` it is 0. -/
theorem C12_gpowerlaw_derivative_witness :
    HasDerivAt (GPowerLaw.g Real.rpow 2) (GPowerLaw.dg Real.rpow 2 1) 1 ∧
    HasDerivAt (GPowerLaw.g Real.rpow 2) (GPowerLaw.dg Real.rpow 2 (-1)) (-1) :=
  ⟨((C12_gpowerlaw_derivative 2 1).1 one_pos).2.2,
   ((C12_gpowerlaw_derivative 2 (-1)).2 (by norm_num)).2.2⟩

/-- The rate `(f/eta)^n` has the derivative `(f/eta)^(n−1)·n/eta` in `f`. -/
theorem hasDerivAt_rate_f (n eta f : ℝ) (heta : 0 < eta) (hf : 0 < f) :
    HasDerivAt (fun x : ℝ => (x / eta) ^ n) ((f / eta) ^ (n - 1) * n / eta) f := by
  have h1 : HasDerivAt (fun x : ℝ => x / eta) (1 / eta) f := (hasDerivAt_id f).div_const eta
  have h2 := h1.rpow_const (p := n) (Or.inl (ne_of_gt (div_pos hf heta)))
  convert h2 using 1
  ring

/-- The rate `(f/eta)^n` has the derivative `−f·(f/eta)^(n−1)·n/eta²` in
`eta`. -/
theorem hasDerivAt_rate_eta (n eta f : ℝ) (heta : 0 < eta) (hf : 0 < f) :
    HasDerivAt (fun e : ℝ => (f / e) ^ n) (-f * (f / eta) ^ (n - 1) * n / (eta * eta)) eta := by
  have h0 : HasDerivAt (fun e : ℝ => e⁻¹) (-(eta ^ 2)⁻¹) eta := hasDerivAt_inv (ne_of_gt heta)
  have h1 : HasDerivAt (fun e : ℝ => f / e) (f * -(eta ^ 2)⁻¹) eta := by
    simpa [div_eq_mul_inv] using h0.const_mul f
  have h2 := h1.rpow_const (p := n) (Or.inl (ne_of_gt (div_pos hf heta)))
  convert h2 using 1
  field_simp
  ring

/-- C14: over the reals, with `eta = eta(alpha[0]) > 0` and `f` the
yield-function value: for `f > 0`, `ChabocheFlowRule::y` writes `(f/eta)^n`,
each of the 6 components of `dy_ds` is the component of `df_ds` times
`mv = (f/eta)^(n−1)·n/eta`, and `mv` is the derivative of `(f/eta)^n` in `f`;
for `f ≤ 0`, `y` writes 0 and `dy_ds` six zeros. -/
theorem C14_chaboche_dy_ds (m : ChabocheFlowRule ℝ) (s alpha : List ℝ) (T : ℝ)
    (dyv : List ℝ) (fv eta : ℝ)
    (hfv : fv = (m.surface_.f s (m.hardening_.q alpha T (zeros m.hardening_.ninter)).2 T).2)
    (heta : eta = m.fluidity_.eta (alpha.getD 0 0)) :
    (0 < eta → 0 < fv →
      (m.y Real.rpow s alpha T).out = (fv / eta) ^ m.n_ ∧
      (∀ i, i < 6 → (m.dy_ds Real.rpow s alpha T dyv).out[i]? =
        ((m.surface_.df_ds s (m.hardening_.q alpha T (zeros m.hardening_.ninter)).2 T
            (fill 6 0 dyv)).2[i]?).map
          (fun x => x * ((fv / eta) ^ (m.n_ - 1) * m.n_ / eta))) ∧
      HasDerivAt (fun x : ℝ => (x / eta) ^ m.n_) ((fv / eta) ^ (m.n_ - 1) * m.n_ / eta) fv) ∧
    (fv ≤ 0 →
      (m.y Real.rpow s alpha T).out = 0 ∧
      ∀ i, i < 6 → i < dyv.length → (m.dy_ds Real.rpow s alpha T dyv).out[i]? = some 0) := by
  subst hfv heta
  constructor
  · intro he hf
    refine ⟨?_, fun i hi => ?_, hasDerivAt_rate_f _ _ _ he hf⟩
    · simp only [ChabocheFlowRule.y, if_pos (show _ > (0 : ℝ) from hf), Real.rpow_eq_pow]
    · simp only [ChabocheFlowRule.dy_ds, if_pos (show _ > (0 : ℝ) from hf), getElem?_mapFirst,
        if_pos hi, Real.rpow_eq_pow]
  · intro hf
    have hnot : ¬ (m.surface_.f s (m.hardening_.q alpha T (zeros m.hardening_.ninter)).2 T).2
        > 0 := not_lt.mpr hf
    refine ⟨?_, fun i hi hil => ?_⟩
    · simp only [ChabocheFlowRule.y, if_neg hnot]
    · simp only [ChabocheFlowRule.dy_ds, if_neg hnot]
      exact getElem?_fill 6 0 dyv i hi hil

/-- C15: over the reals, with `eta = eta(alpha[0]) > 0` and `f > 0`: the factor
`mv2 = −f·(f/eta)^(n−1)·n/eta²` of `ChabocheFlowRule::dy_da` is the derivative
of `(f/eta)^n` in `eta`; component 0 of the output is `mv·w_0` plus
`deta(alpha[0])·mv2`; and when `deta(alpha[0])` is the derivative of the
fluidity at `alpha[0]`, that added term is the derivative of the rate
`(f/eta(a))^n` in `a` at `alpha[0]`. -/
theorem C15_chaboche_dy_da_fluidity (nm : NemlMath ℝ) (m : ChabocheFlowRule ℝ)
    (s alpha : List ℝ) (T : ℝ) (dyv : List ℝ) (w : List ℝ) (fv eta mv mv2 : ℝ)
    (hfv : fv = (m.surface_.f s (m.hardening_.q alpha T (zeros m.hardening_.ninter)).2 T).2)
    (hw : w = nm.mat_vec_trans
      (m.hardening_.dq_da alpha T (zeros (m.hardening_.ninter * m.nhist))).2 m.nhist
      (m.surface_.df_dq s (m.hardening_.q alpha T (zeros m.hardening_.ninter)).2 T
        (zeros m.hardening_.ninter)).2 m.hardening_.ninter (fill m.nhist 0 dyv))
    (heta : eta = m.fluidity_.eta (alpha.getD 0 0))
    (hmv : mv = (fv / eta) ^ (m.n_ - 1) * m.n_ / eta)
    (hmv2 : mv2 = -fv * (fv / eta) ^ (m.n_ - 1) * m.n_ / (eta * eta))
    (hepos : 0 < eta) (hfpos : 0 < fv) :
    HasDerivAt (fun e : ℝ => (fv / e) ^ m.n_) mv2 eta ∧
    (1 ≤ m.nhist → (m.dy_da Real.rpow nm s alpha T dyv).out[0]? =
      (w[0]?).map (fun x => x * mv + m.fluidity_.deta (alpha.getD 0 0) * mv2)) ∧
    (HasDerivAt m.fluidity_.eta (m.fluidity_.deta (alpha.getD 0 0)) (alpha.getD 0 0) →
      HasDerivAt (fun a : ℝ => (fv / m.fluidity_.eta a) ^ m.n_)
        (m.fluidity_.deta (alpha.getD 0 0) * mv2) (alpha.getD 0 0)) := by
  subst hfv hw hmv hmv2
  have hd := hasDerivAt_rate_eta m.n_ eta _ hepos hfpos
  refine ⟨hd, fun h1 => ?_, fun hfl => ?_⟩
  · subst heta
    simp only [ChabocheFlowRule.dy_da, if_pos (show _ > (0 : ℝ) from hfpos), getElem?_mapFirst,
      if_pos (show 0 < 1 by omega), if_pos (show 0 < m.nhist by omega), Option.map_map,
      Real.rpow_eq_pow]
    rfl
  · rw [heta] at hd
    have hc := HasDerivAt.comp (alpha.getD 0 0) hd hfl
    rw [mul_comm]
    rw [heta]
    exact hc

/-- C19 as stated fails in double arithmetic, where `pow` can underflow: with
`f = 2^-600`, `eta = 2^-500` and exponent 2 the Perzyna rule computes
`pow(f, 2)`, which is rounded to 0, and writes the rate 0, while the Chaboche
rule computes `pow(f/eta, 2) = 2^-200` and writes that. -/
theorem C19_perzyna_chaboche_rates_counterexample :
    ¬ ((PerzynaFlowRule.y (PerzynaFlowRule.mk (constSurface 1 0 (1 / 2 ^ 600))
          (constHardening 1 0) (GPowerLaw underflowPow 2) (underflowPow (1 / 2 ^ 500) 2))
          [0, 0, 0, 0, 0, 0] [0] 0).out =
        (ChabocheFlowRule.y underflowPow (ChabocheFlowRule.mk (constSurface 1 0 (1 / 2 ^ 600))
          (constNAHardening 1 1 0) (ConstantFluidity (1 / 2 ^ 500)) 2)
          [0, 0, 0, 0, 0, 0] [0] 0).out) := by
  norm_num [PerzynaFlowRule.y, ChabocheFlowRule.y, GPowerLaw, GPowerLaw.g, ConstantFluidity,
    underflowPow, constSurface, show Int.toNat 2 = 2 from rfl]

/-- C19, amended: in exact arithmetic, that is whenever `pow` of a positive
base is positive and `pow(x/y, z) = pow(x, z)/pow(y, z)` for positive `x`, `y`,
for `eta > 0` and rules that see the same yield-function value `f`: the rate of
the Perzyna rule
with `g = GPowerLaw(n)` and viscosity `pow(eta, n)` equals the rate of the
Chaboche rule with `ConstantFluidity(eta)` and exponent `n`; both are
`pow(f/eta, n)` for `f > 0` and 0 for `f ≤ 0`. -/
theorem C19_perzyna_chaboche_rates {R : Type} [LinearOrderedField R] (pow : R → R → R)
    (surfP surfC : YieldSurface R) (hardP : HardeningRule R)
    (hardC : NonAssociativeHardening R) (n eta f : R) (s alpha : List R) (T : R)
    (hfP : (surfP.f s (hardP.q alpha T (zeros hardP.nhist)).2 T).2 = f)
    (hfC : (surfC.f s (hardC.q alpha T (zeros hardC.ninter)).2 T).2 = f)
    (heta : 0 < eta)
    (hpos : ∀ x y : R, 0 < x → 0 < pow x y)
    (hdiv : ∀ x y z : R, 0 < x → 0 < y → pow (x / y) z = pow x z / pow y z) :
    (PerzynaFlowRule.y (PerzynaFlowRule.mk surfP hardP (GPowerLaw pow n) (pow eta n))
        s alpha T).out =
      (ChabocheFlowRule.y pow (ChabocheFlowRule.mk surfC hardC (ConstantFluidity eta) n)
        s alpha T).out ∧
    (ChabocheFlowRule.y pow (ChabocheFlowRule.mk surfC hardC (ConstantFluidity eta) n)
        s alpha T).out =
      (if 0 < f then pow (f / eta) n else 0) := by
  simp only [PerzynaFlowRule.y, PerzynaFlowRule.nhist, ChabocheFlowRule.y, GPowerLaw,
    GPowerLaw.g, ConstantFluidity, hfP, hfC]
  by_cases hf : f > 0
  · have hp := hpos f n hf
    rw [if_pos hf, if_pos (show pow f n > 0 from hp), if_pos (show 0 < f from hf)]
    exact ⟨(hdiv f eta n hf heta).symm, trivial⟩
  · rw [if_neg hf, if_neg (lt_irrefl (0 : R)), if_neg (show ¬ 0 < f from hf)]
    exact ⟨rfl, trivial⟩

/-- C14 at the sample rule over the reals (`f = 4`, `eta = 2`, `n = 2`): the
rate is `(4/2)^2` and the multiplier is its derivative in `f`. -/
theorem C14_chaboche_dy_ds_witness :
    ((sampleRateRule (4 : ℝ) 2).y Real.rpow [] [0] 0).out = ((4 : ℝ) / 2) ^ (2 : ℝ) ∧
    HasDerivAt (fun x : ℝ => (x / 2) ^ (2 : ℝ)) (((4 : ℝ) / 2) ^ ((2 : ℝ) - 1) * 2 / 2) 4 :=
  ⟨((C14_chaboche_dy_ds (sampleRateRule (4 : ℝ) 2) [] [0] 0 [] 4 2 rfl
      (by norm_num [sampleRateRule])).1 (by norm_num) (by norm_num)).1,
   ((C14_chaboche_dy_ds (sampleRateRule (4 : ℝ) 2) [] [0] 0 [] 4 2 rfl
      (by norm_num [sampleRateRule])).1 (by norm_num) (by norm_num)).2.2⟩

/-- C15 at the sample rule over the reals (`f = 4`, `eta = 2`, `n = 2`): `mv2`
is the derivative of `(4/e)^2` in `e` at 2. -/
theorem C15_chaboche_dy_da_fluidity_witness :
    HasDerivAt (fun e : ℝ => ((4 : ℝ) / e) ^ (2 : ℝ))
      (-4 * ((4 : ℝ) / 2) ^ ((2 : ℝ) - 1) * 2 / (2 * 2)) 2 :=
  (C15_chaboche_dy_da_fluidity sampleMath (sampleRateRule (4 : ℝ) 2) [] [0] 0 [] _ 4 2
    (((4 : ℝ) / 2) ^ ((2 : ℝ) - 1) * 2 / 2) (-4 * ((4 : ℝ) / 2) ^ ((2 : ℝ) - 1) * 2 / (2 * 2))
    rfl rfl (by norm_num [sampleRateRule]) rfl rfl (by norm_num) (by norm_num)).1

/-- C19 amended, over the reals with the real power (`f = 4`, `eta = 3`,
`n = 2`): the Perzyna rate with viscosity `3^2` is the Chaboche rate. -/
theorem C19_perzyna_chaboche_rates_witness :
    (PerzynaFlowRule.y (PerzynaFlowRule.mk (sampleRateRule (4 : ℝ) 2).surface_
        (plainHardening 1) (GPowerLaw Real.rpow 2) (Real.rpow 3 2))
        [0, 0, 0, 0, 0, 0] [0, 0] 0).out =
      (ChabocheFlowRule.y Real.rpow (ChabocheFlowRule.mk (sampleRateRule (4 : ℝ) 2).surface_
        (sampleRateRule (4 : ℝ) 2).hardening_ (ConstantFluidity 3) 2)
        [0, 0, 0, 0, 0, 0] [0, 0] 0).out :=
  (C19_perzyna_chaboche_rates Real.rpow (sampleRateRule (4 : ℝ) 2).surface_
    (sampleRateRule (4 : ℝ) 2).surface_ (plainHardening 1)
    (sampleRateRule (4 : ℝ) 2).hardening_ 2 3 4 [0, 0, 0, 0, 0, 0] [0, 0] 0 rfl rfl
    (by norm_num)
    (fun _ y hx => Real.rpow_pos_of_pos hx y)
    (fun _ _ z hx hy => Real.div_rpow (le_of_lt hx) (le_of_lt hy) z)).1

end neml
